import Mathlib

/-!
Verification development for the sparky-live nightly analysis engine.

The JavaScript sources are shallowly embedded: JS numbers are modelled as `ℚ`
(with explicit rounding helpers mirroring `Math.round` and `toFixed`), JS
arrays as `List`, JS objects used as keyed accumulators as association lists
in insertion order, and the stable `Array.prototype.sort` as a stable
insertion sort (for a total preorder the stable sorted permutation is
unique, so any stable sort gives the JS result).  Fallible results are
`Option`.  The historical-archive accessors (network I/O in the source) are
abstracted as a structure of total functions plus an `ok` flag for the
try/catch around the archive tier.
-/

/-- `Math.round x` in JS: floor of `x + 1/2` (half rounds toward +∞). -/
def jsRound (q : ℚ) : ℤ := ⌊q + 1/2⌋

/-- `x.toFixed(2)` then unary `+`: the numeric value rounded to 2 decimals. -/
def round2 (q : ℚ) : ℚ := (jsRound (q * 100) : ℚ) / 100

/-- `x.toFixed(1)` then unary `+`: the numeric value rounded to 1 decimal. -/
def round1 (q : ℚ) : ℚ := (jsRound (q * 10) : ℚ) / 10

/-- `arr.slice(-n)` in JS: the last `n` elements, except that `slice(-0)`
is `slice(0)`, i.e. the whole array. -/
def jsSliceLast {α : Type} (n : ℕ) (xs : List α) : List α :=
  if n = 0 then xs else xs.drop (xs.length - n)

/-- Digit characters of a natural, with structural fuel (a number has at
most `n + 1` digits), used to model JS number printing. -/
def natDigitsAux : ℕ → ℕ → List Char
  | 0, _ => []
  | fuel + 1, n =>
    if n < 10 then [Char.ofNat (48 + n)]
    else natDigitsAux fuel (n / 10) ++ [Char.ofNat (48 + n % 10)]

/-- Digit characters of a natural. -/
def natDigits (n : ℕ) : List Char := natDigitsAux (n + 1) n

/-- Decimal digits of a fraction in `[0,1)`, dropping trailing zeros, with
fuel bounding the expansion (JS prints at most 17 significant digits). -/
def fracDigits : ℕ → ℚ → List Char
  | 0, _ => []
  | fuel + 1, q =>
    if q ≤ 0 then []
    else
      let d : ℤ := ⌊q * 10⌋
      let rest := fracDigits fuel (q * 10 - d)
      if rest = [] ∧ d = 0 then [] else Char.ofNat (48 + d.toNat) :: rest

/-- JS number-to-string for a template literal, on the rationals this
program actually prints (integers and finite decimals). -/
def qstr (q : ℚ) : String :=
  let sign := if q < 0 then "-" else ""
  let a := |q|
  let ip := ⌊a⌋.toNat
  let fr := fracDigits 20 (a - ⌊a⌋)
  sign ++ String.mk (natDigits ip) ++ (if fr = [] then "" else "." ++ String.mk fr)

/-- `x.toFixed(2)` as a string (round to nearest, ties to the larger
candidate, then print with exactly two decimals). -/
def fixed2 (q : ℚ) : String :=
  let n := ⌊q * 100 + 1/2⌋
  let sign := if n < 0 then "-" else ""
  let m := n.natAbs
  sign ++ String.mk (natDigits (m / 100)) ++ "." ++
    (if m % 100 < 10 then "0" else "") ++ String.mk (natDigits (m % 100))

/-- Helper for `commaSep`, with structural fuel. -/
def commaSepAux : ℕ → ℕ → String
  | 0, _ => ""
  | fuel + 1, n =>
    if n < 1000 then String.mk (natDigits n)
    else
      let r := n % 1000
      commaSepAux fuel (n / 1000) ++ "," ++
        (if r < 10 then "00" else if r < 100 then "0" else "") ++ String.mk (natDigits r)

/-- `n.toLocaleString()` for a nonnegative integer: digits grouped in
threes with commas. -/
def commaSep (n : ℕ) : String := commaSepAux (n + 1) n

/-- Value of a digit string (no sign), for parsing date components. -/
def digitsToNat (cs : List Char) : ℕ :=
  cs.foldl (fun a c => a * 10 + (c.toNat - 48)) 0

/-- Days since the civil epoch 1970-01-01 (Gregorian), the standard
days-from-civil computation; dates here are all CE so truncated division
agrees with floor division. -/
def daysFromCivil (y m d : ℤ) : ℤ :=
  let y' := if m ≤ 2 then y - 1 else y
  let era := y' / 400
  let yoe := y' - era * 400
  let mp := (m + 9) % 12
  let doy := (153 * mp + 2) / 5 + d - 1
  let doe := yoe * 365 + yoe / 4 - yoe / 100 + doy
  era * 146097 + doe - 719468

/-- Day number of a `"YYYY-MM-DD"` string: `new Date(s+"T12:00:00Z")`
differences divided by 86400000 ms reduce to differences of this value. -/
def dateNum (s : String) : ℤ :=
  let cs := s.data
  daysFromCivil (digitsToNat (cs.take 4)) (digitsToNat ((cs.drop 5).take 2))
    (digitsToNat ((cs.drop 8).take 2))

/-- ASCII lower-casing of one character (`String.prototype.toLowerCase`
restricted to the ASCII names this league uses). -/
def jsLowerChar (c : Char) : Char :=
  if 'A' ≤ c ∧ c ≤ 'Z' then Char.ofNat (c.toNat + 32) else c

/-- `name.toLowerCase()`. -/
def jsToLower (s : String) : String := String.mk (s.data.map jsLowerChar)

/-- Whitespace for `String.prototype.trim`. -/
def jsIsSpace (c : Char) : Bool := c = ' ' ∨ c = '\t' ∨ c = '\n' ∨ c = '\r'

/-- `name.trim()`. -/
def jsTrim (s : String) : String :=
  String.mk (((s.data.dropWhile jsIsSpace).reverse.dropWhile jsIsSpace).reverse)

/-- `name.toLowerCase().trim()`-style normalisation used by `toFranchise`
(the source lower-cases then trims). -/
def jsNormalize (s : String) : String := jsTrim (jsToLower s)

/-- Helper for substring search over character lists. -/
def subAux (hay pat : List Char) : Bool :=
  match hay with
  | [] => pat.isEmpty
  | _ :: t => pat.isPrefixOf hay || subAux t pat

/-- `hay.includes(pat)` in JS (empty pattern is always contained). -/
def jsIncludes (hay pat : String) : Bool := subAux hay.data pat.data

/-- First value in an association list for a key, `undefined` as `none`
(JS object lookup; properties iterate in insertion order here since all
keys are non-numeric strings). -/
def jsLookup (m : List (String × String)) (k : String) : Option String :=
  (m.find? (fun p => p.1 == k)).map (·.2)

/-- An apostrophe, kept out of string literals. -/
def apos : String := String.mk [Char.ofNat 39]

/-- `FRANCHISE_MAP` from config.js: Fantrax team names → franchise codes,
in source order. -/
def FRANCHISE_MAP : List (String × String) :=
  [("jason" ++ apos ++ "s gaucho chudpumpers", "JGC"),
   ("gaucho chudpumpers", "JGC"),
   ("cmack" ++ apos ++ "s pwn", "PWN"),
   ("pwn", "PWN"),
   ("brian" ++ apos ++ "s endless winter", "BEW"),
   ("endless winter", "BEW"),
   ("brian" ++ apos ++ "s.endless.win ter.s13e01.720p.mp4", "BEW"),
   ("matt" ++ apos ++ "s mid tier perpetual projects", "MPP"),
   ("mid tier perpetual projects", "MPP"),
   ("richie" ++ apos ++ "s meatspinners", "RMS"),
   ("meatspinners", "RMS"),
   ("graeme" ++ apos ++ "s downtown demons", "GDD"),
   ("downtown demons", "GDD")]

/-- `FRANCHISE_NAMES` from config.js. -/
def FRANCHISE_NAMES : List (String × String) :=
  [("JGC", "Gaucho Chudpumpers"),
   ("PWN", "PWN"),
   ("BEW", "Endless Winter"),
   ("MPP", "mid tier perpetual projects"),
   ("RMS", "Meatspinners"),
   ("GDD", "Downtown Demons")]

/-- The keyword fallback table inside `toFranchise`. -/
def KEYWORDS : List (String × String) :=
  [("gaucho", "JGC"), ("chudpumper", "JGC"),
   ("pwn", "PWN"),
   ("endless", "BEW"), ("winter", "BEW"),
   ("perpetual", "MPP"), ("mid tier", "MPP"),
   ("meatspinner", "RMS"),
   ("downtown", "GDD"), ("demon", "GDD")]

/-- `FRANCHISE_TO_OWNER` from historical.js (inverted `OWNER_TO_FRANCHISE`). -/
def FRANCHISE_TO_OWNER : List (String × String) :=
  [("JGC", "Jason"), ("BEW", "Brian"), ("GDD", "Graeme"),
   ("PWN", "Chris"), ("RMS", "Richie"), ("MPP", "Matt")]

/-- `toFranchise(name)` from config.js: resolve a raw team name to a
franchise code via exact normalized match, then substring match in either
direction over the map, then keyword fallback; `null` when nothing hits. -/
def toFranchise (name : String) : Option String :=
  if name = "" then none
  else
    let normalized := jsNormalize name
    match jsLookup FRANCHISE_MAP normalized with
    | some abbr => some abbr
    | none =>
      match FRANCHISE_MAP.find?
          (fun p => jsIncludes normalized p.1 || jsIncludes p.1 normalized) with
      | some p => some p.2
      | none => (KEYWORDS.find? (fun p => jsIncludes normalized p.1)).map (·.2)

/-- `t.franchise || toFranchise(t.name)` has this as its first half:
an empty string is falsy. -/
def orFranchise (franchise : String) (name : String) : Option String :=
  if franchise ≠ "" then some franchise else toFranchise name

/-- One period row of `PERIODS` from config.js. -/
structure PeriodCfg where
  period : ℕ
  pstart : String
  pend : String
deriving Repr, DecidableEq

/-- `PERIODS` from config.js. -/
def PERIODS : List PeriodCfg :=
  [⟨1, "2025-10-07", "2025-10-19"⟩,
   ⟨2, "2025-10-20", "2025-11-02"⟩,
   ⟨3, "2025-11-03", "2025-11-16"⟩,
   ⟨4, "2025-11-17", "2025-11-30"⟩,
   ⟨5, "2025-12-01", "2025-12-14"⟩,
   ⟨6, "2025-12-15", "2025-12-28"⟩,
   ⟨7, "2025-12-29", "2026-01-11"⟩,
   ⟨8, "2026-01-12", "2026-01-25"⟩,
   ⟨9, "2026-01-26", "2026-02-08"⟩,
   ⟨10, "2026-02-23", "2026-03-08"⟩,
   ⟨11, "2026-03-09", "2026-03-22"⟩,
   ⟨12, "2026-03-23", "2026-04-05"⟩,
   ⟨13, "2026-04-06", "2026-04-16"⟩]

/-- Inclusive day span of a period:
`Math.round((end - start) / 86400000) + 1`. -/
def periodSpanDays (c : PeriodCfg) : ℤ := dateNum c.pend - dateNum c.pstart + 1

/-- One team's entry in a daily score record (shape written by
`saveDailyScore` and scraped for today). -/
structure Team where
  franchise : String
  name : String
  dayPts : ℚ
  projPts : ℚ
  gp : ℕ
deriving Repr, DecidableEq

/-- One daily score record (`data/daily/*.json`), after
`loadAllDailyScores` filtering. -/
structure Day where
  date : String
  period : ℕ
  teams : List Team
deriving Repr, DecidableEq

/-- `day.teams.find(t => t.franchise === franchise)`. -/
def findTeam (franchise : String) (d : Day) : Option Team :=
  d.teams.find? (fun t => t.franchise == franchise)

/-- `day.teams.some(t => t.franchise === franchise)`. -/
def dayHas (franchise : String) (d : Day) : Bool :=
  d.teams.any (fun t => t.franchise == franchise)

/-- `rollingAvgPPG(allDays, franchise, n)` from analyze.js: last `n`
days mentioning the franchise (JS `slice(-n)`); points per game over
them, falling back to points per day when no games are recorded. -/
def rollingAvgPPG (allDays : List Day) (franchise : String) (n : ℕ) : Option ℚ :=
  let teamDays := jsSliceLast n (allDays.filter (dayHas franchise))
  if teamDays.length = 0 then none
  else
    let found := teamDays.filterMap (findTeam franchise)
    let totalPts : ℚ := (found.map (·.dayPts)).sum
    let totalGP : ℕ := (found.map (·.gp)).sum
    if 0 < totalGP then some (round2 (totalPts / totalGP))
    else some (round2 (totalPts / teamDays.length))

/-- The last `n` elements of a list (the spec's "take the last n records"). -/
def takeLast {α : Type} (n : ℕ) (xs : List α) : List α := xs.drop (xs.length - n)

/-- The specification's description of `rollingAvgPPG` (spec section 4.1),
for refinement against the implementation: take the last `n` records in
which the franchise appears, sum `dayPts` and `gp`, divide (falling back
to per-record average when total `gp` is zero), round to 2 decimals, and
return `null` exactly when no record was taken. -/
def rollingAvgPPGSpec (allDays : List Day) (franchise : String) (n : ℕ) : Option ℚ :=
  let window := takeLast n (allDays.filter (dayHas franchise))
  if window = [] then none
  else
    let pts : ℚ := (window.map (fun d => ((findTeam franchise d).map (·.dayPts)).getD 0)).sum
    let gp : ℕ := (window.map (fun d => ((findTeam franchise d).map (·.gp)).getD 0)).sum
    if 0 < gp then some (round2 (pts / gp))
    else some (round2 (pts / window.length))

/-- `seasonPPG(allDays, franchise)` from analyze.js: full-history points
per game, `0` (not `null`) when the franchise never appears. -/
def seasonPPG (allDays : List Day) (franchise : String) : ℚ :=
  let found := allDays.filterMap (findTeam franchise)
  let totalPts : ℚ := (found.map (·.dayPts)).sum
  let totalGP : ℕ := (found.map (·.gp)).sum
  let dayCount := found.length
  if 0 < totalGP then round2 (totalPts / totalGP)
  else if 0 < dayCount then round2 (totalPts / dayCount)
  else 0

/-- Days of the store belonging to one period. -/
def periodDaysOf (allDays : List Day) (period : ℕ) : List Day :=
  allDays.filter (fun d => d.period == period)

/-- Sum of the franchise's `dayPts` over the period's loaded days
(the `periodPts` accumulation inside `projectPeriodFinish`). -/
def periodPtsRaw (allDays : List Day) (franchise : String) (period : ℕ) : ℚ :=
  (((periodDaysOf allDays period).filterMap (findTeam franchise)).map (·.dayPts)).sum

/-- Result shape of `projectPeriodFinish`. -/
structure Projection where
  periodPts : ℚ
  projected : ℤ
  daysPlayed : ℕ
  daysRemaining : ℤ
  totalDays : ℤ
deriving Repr, DecidableEq

/-- `projectPeriodFinish(allDays, franchise, period)` from analyze.js:
linear extrapolation of the franchise's period total over the period's
configured day span. -/
def projectPeriodFinish (allDays : List Day) (franchise : String) (period : ℕ) :
    Option Projection :=
  let periodDays := periodDaysOf allDays period
  if periodDays.length = 0 then none
  else
    match PERIODS.find? (fun p => p.period == period) with
    | none => none
    | some periodConfig =>
      let periodPts := periodPtsRaw allDays franchise period
      let daysPlayed := periodDays.length
      let totalDays := periodSpanDays periodConfig
      let daysRemaining := totalDays - daysPlayed
      if daysPlayed = 0 then none
      else
        let dailyAvg := periodPts / daysPlayed
        some { periodPts := round1 periodPts,
               projected := jsRound (periodPts + dailyAvg * daysRemaining),
               daysPlayed := daysPlayed,
               daysRemaining := daysRemaining,
               totalDays := totalDays }

/-- Stable insertion of `x` into `l`: `x` goes before the first element it
may precede.  Used to model the stable `Array.prototype.sort`. -/
def insertLe {α : Type} (le : α → α → Bool) (x : α) : List α → List α
  | [] => [x]
  | y :: ys => if le x y then x :: y :: ys else y :: insertLe le x ys

/-- Stable sort by `le` (a total preorder in every use below).  The stable
sorted permutation under a total preorder is unique, so this equals the JS
engine's stable `sort`. -/
def sortBy {α : Type} (le : α → α → Bool) : List α → List α
  | [] => []
  | x :: xs => insertLe le x (sortBy le xs)

/-- One entry of the `rankedDays` view inside `buildNarratives`. -/
structure RankedDay where
  date : String
  period : ℕ
  rank : ℕ
  dayPts : ℚ
  numTeams : ℕ
deriving Repr, DecidableEq

/-- One day of `rankedDays`: rank of the franchise in that day's
descending `dayPts` order, rank 7 when absent. -/
def rankedDayFor (franchise : String) (day : Day) : RankedDay :=
  let sorted := sortBy (fun a b => decide (b.dayPts ≤ a.dayPts)) day.teams
  match sorted.findIdx? (fun t => t.franchise == franchise) with
  | some i =>
    { date := day.date, period := day.period, rank := i + 1,
      dayPts := ((sorted[i]?.map (·.dayPts)).getD 0), numTeams := sorted.length }
  | none =>
    { date := day.date, period := day.period, rank := 7, dayPts := 0,
      numTeams := sorted.length }

/-- Length of the trailing run of days satisfying `p` (the
`for (i = recent.length - 1; ...; i--) ... else break` loops). -/
def streakFromEnd (p : RankedDay → Bool) (l : List RankedDay) : ℕ :=
  (l.reverse.takeWhile p).length

/-- `if (!totals[k]) totals[k] = 0; totals[k] += v` on a JS object in
insertion order. -/
def addTo (acc : List (String × ℚ)) (k : String) (v : ℚ) : List (String × ℚ) :=
  let acc' := if acc.any (fun p => p.1 == k) then acc else acc ++ [(k, (0 : ℚ))]
  acc'.map (fun p => if p.1 == k then (p.1, p.2 + v) else p)

/-- Accumulate `dayPts` per franchise over a set of days (the repeated
`totals` object pattern in the narrative helpers). -/
def teamTotals (days : List Day) : List (String × ℚ) :=
  days.foldl (fun acc day => day.teams.foldl (fun a t => addTo a t.franchise t.dayPts) acc) []

/-- `rankInDays` inside `computePeriodStandings` (and the body of
`computePeriodRankAtDay`): 1-based rank in descending cumulative totals. -/
def rankInDays (days : List Day) (franchise : String) : Option ℕ :=
  let sorted := sortBy (fun a b => decide (b.2 ≤ a.2)) (teamTotals days)
  (sorted.findIdx? (fun p => p.1 == franchise)).map (· + 1)

/-- Result of `computePeriodStandings`. -/
structure Standings where
  currentRank : ℕ
  previousRank : ℕ
deriving Repr, DecidableEq

/-- `computePeriodStandings(periodDays, franchise)`: cumulative period
rank today vs yesterday. -/
def computePeriodStandings (periodDays : List Day) (franchise : String) :
    Option Standings :=
  if periodDays.length < 2 then none
  else
    match rankInDays periodDays franchise, rankInDays periodDays.dropLast franchise with
    | some c, some p => some { currentRank := c, previousRank := p }
    | _, _ => none

/-- `computePeriodRankAtDay(days, franchise)`. -/
def computePeriodRankAtDay (days : List Day) (franchise : String) : Option ℕ :=
  rankInDays days franchise

/-- `computeAllPeriodTotals(allDays, franchise)`: per-period totals for
the franchise, restricted to periods with at least 7 loaded days.  JS
object keys here are integers, which iterate in ascending numeric order. -/
def computeAllPeriodTotals (allDays : List Day) (franchise : String) : List (ℕ × ℚ) :=
  let periodMap := allDays.foldl (fun acc day =>
    if day.period = 0 then acc
    else
      let acc' := if acc.any (fun p => p.1 == day.period) then acc
        else acc ++ [(day.period, (0 : ℚ))]
      match day.teams.find? (fun t => t.franchise == franchise) with
      | some t => acc'.map (fun p => if p.1 == day.period then (p.1, p.2 + t.dayPts) else p)
      | none => acc') []
  (sortBy (fun a b => decide (a.1 ≤ b.1)) periodMap).filter
    (fun p => 7 ≤ (allDays.filter (fun d => d.period == p.1)).length)

/-- A narrative candidate: `{ score, text, isBad?, cat? }`. -/
structure Candidate where
  score : ℤ
  text : String
  isBad : Bool := false
  cat : Option String := none
deriving Repr, DecidableEq

/-- One season's total through a period (from `getSeasonPace`; totals are
`Math.round`ed there). -/
structure PaceEntry where
  season : ℤ
  totalThroughPeriod : ℤ
deriving Repr, DecidableEq

/-- Result of `getSeasonPace`. -/
structure SeasonPace where
  historicalPaces : List PaceEntry
  bestPace : PaceEntry
  worstPace : PaceEntry
deriving Repr, DecidableEq

/-- Result of `getPeriodDominance`. -/
structure Dominance where
  wins : ℕ
  totalOccurrences : ℕ
  topWinner : Option String
  topWinnerWins : ℕ
deriving Repr, DecidableEq

/-- Result of `getH2HPeriodRecord`. -/
structure H2H where
  winsA : ℕ
  winsB : ℕ
  total : ℕ
  neverBeatenByB : Bool
  neverBeatenByA : Bool
deriving Repr, DecidableEq

/-- `lastWin` of `getFranchiseMatchupStreak`. -/
structure LastWin where
  season : ℤ
  period : ℕ
deriving Repr, DecidableEq

/-- Result of `getFranchiseMatchupStreak` (`type` is `"W"` or `"L"`). -/
structure MatchupStreak where
  streak : ℕ
  mtype : String
  lastWin : Option LastWin
deriving Repr, DecidableEq

/-- One row of `getPeriodHistory` (fields the narrative engine reads). -/
structure HistEntry where
  season : ℤ
  franchise : String
  fpts : ℚ
deriving Repr, DecidableEq

/-- Result of `getFranchisePeriodBest`. -/
structure PeriodBest where
  season : ℤ
  fpts : ℚ
deriving Repr, DecidableEq

/-- The historical-archive accessors of historical.js, abstracted as total
functions (the source fetches and caches a spreadsheet).  `ok = false`
models the archive fetch throwing, which the narrative engine catches:
the whole historical tier then contributes no candidates. -/
structure Archive where
  ok : Bool
  careerTotalPts : String → ℤ
  seasonPace : String → ℕ → ℤ → Option SeasonPace
  dominance : ℕ → String → Dominance
  h2h : ℕ → String → String → Option H2H
  matchupStreak : String → Option MatchupStreak
  leagueRecord : ℕ → Option HistEntry
  periodHistory : ℕ → List HistEntry
  franchiseBest : ℕ → String → Option PeriodBest

/-- The career milestone table inside `buildNarratives`. -/
def milestones : List ℤ :=
  [1000, 2000, 3000, 4000, 5000, 6000, 7000, 8000, 9000, 10000, 12500, 15000]

/-- The `for (const m of milestones)` loop: first milestone within a band
produces a candidate and breaks; milestones long crossed or further than
100 points away are passed over. -/
def milestoneScan (approx : ℚ) : List ℤ → Option Candidate
  | [] => none
  | m :: rest =>
    let remaining : ℚ := (m : ℚ) - approx
    if 0 < remaining ∧ remaining ≤ 20 then
      some { score := 85,
             text := "🏅 " ++ qstr remaining ++ " pts from " ++ commaSep m.toNat
               ++ " career points" }
    else if 0 < remaining ∧ remaining ≤ 50 then
      some { score := 70,
             text := "🏅 " ++ qstr remaining ++ " pts from " ++ commaSep m.toNat
               ++ " career points" }
    else if 0 < remaining ∧ remaining ≤ 100 then
      some { score := 55,
             text := "🏅 " ++ qstr remaining ++ " pts from " ++ commaSep m.toNat
               ++ " career points" }
    else if remaining ≤ 0 ∧ -5 < remaining then
      some { score := 90,
             text := "🏅 Just crossed " ++ commaSep m.toNat ++ " career points!" }
    else milestoneScan approx rest

/-- The career-milestone detector: career total (already rounded by
`getCareerTotalPoints`) plus the current period's points to date. -/
def careerMilestone (careerTotalPts : ℤ) (currentPeriodPts : ℚ) : List Candidate :=
  if 0 < careerTotalPts then
    match milestoneScan ((careerTotalPts : ℚ) + currentPeriodPts) milestones with
    | some c => [c]
    | none => []
  else []

/-- The projection-confidence multiplier:
`Math.min(1.0, 0.3 + (daysPlayed / totalDays) * 0.9)`, `0` with no
projection. -/
def projConfidence (projection : Option Projection) : ℚ :=
  match projection with
  | some p => min 1 (3/10 + ((p.daysPlayed : ℚ) / (p.totalDays : ℚ)) * (9/10))
  | none => 0

/-- `toFranchise(t.franchise) || toFranchise(t.name) || t.franchise` for a
scraped team row. -/
def resolveScrapeF (t : Team) : String :=
  match toFranchise t.franchise with
  | some f => f
  | none =>
    match toFranchise t.name with
    | some f => f
    | none => t.franchise

/-- `arr.reduce((worst, entry) => entry.fpts < worst.fpts ? entry : worst)`
(earliest minimum wins ties). -/
def reduceMinFpts (h : HistEntry) (t : List HistEntry) : HistEntry :=
  t.foldl (fun w e => if e.fpts < w.fpts then e else w) h

/-- Detectors 1-13 of `buildNarratives` (the local/statistical tier,
computed purely from the loaded daily store), in source order. -/
def localCandidates (allDays : List Day) (franchise : String) (period : ℕ)
    (todayDayPts : ℚ) (todayGP : ℕ) (projection : Option Projection)
    (avg3d : Option ℚ) (ppg : ℚ) : List Candidate :=
  let rankedDays := allDays.map (rankedDayFor franchise)
  let recent := jsSliceLast 30 rankedDays
  let currentPeriod := period
  let periodDays := periodDaysOf allDays currentPeriod
  let periodRanked := rankedDays.filter (fun d => d.period == currentPeriod)
  let periodTotalDays : ℤ :=
    match PERIODS.find? (fun p => p.period == currentPeriod) with
    | some c => periodSpanDays c
    | none => 14
  let periodProgress : ℚ := (periodDays.length : ℚ) / (Int.cast periodTotalDays : ℚ)
  let inBackHalf := (1 : ℚ)/2 ≤ periodProgress
  let winStreak := streakFromEnd (fun r => r.rank == 1) recent
  let podiumStreak := streakFromEnd (fun r => decide (r.rank ≤ 3)) recent
  let bottomStreak := streakFromEnd (fun r => decide (3 < r.rank)) recent
  -- 1. Win streak
  (if 2 ≤ winStreak then
    [{ score := min 95 (40 + (winStreak : ℤ) * 15),
       text := "🔥 " ++ toString winStreak ++ "-day win streak" }]
  else []) ++
  -- 2. Podium streak (suppressed by a live win streak)
  (if 3 ≤ podiumStreak ∧ winStreak < 2 then
    [{ score := min 90 (25 + (podiumStreak : ℤ) * 10),
       text := "📈 " ++ toString podiumStreak ++ "-day podium streak" }]
  else []) ++
  -- 3. Bottom-half streak
  (if 5 ≤ bottomStreak then
    [{ score := min 85 (30 + (bottomStreak : ℤ) * 7),
       text := "⚠️ " ++ toString bottomStreak ++ "-day bottom-half streak",
       isBad := true }]
  else []) ++
  -- 4. Best day this period (back half only)
  (if inBackHalf ∧ 1 < periodDays.length ∧ 0 < todayDayPts then
    let allPeriodPts := periodDays.map (fun day =>
      match findTeam franchise day with
      | some t => t.dayPts
      | none => 0)
    let bestInPeriod := (allPeriodPts.max?).getD 0
    if bestInPeriod ≤ todayDayPts then
      [{ score := 30 + jsRound (periodProgress * 35),
         text := "⭐ Best day this period (so far)" }]
    else []
  else []) ++
  -- 5. Period rank change
  (if 2 ≤ periodRanked.length then
    match computePeriodStandings periodDays franchise with
    | some st =>
      let change : ℤ := |(st.currentRank : ℤ) - (st.previousRank : ℤ)|
      if st.currentRank < st.previousRank then
        let positionBonus : ℤ := if st.currentRank ≤ 2 then 15 else 0
        [{ score := 15 + change * 10 + jsRound (periodProgress * 20) + positionBonus,
           text := "⬆️ Climbed to #" ++ toString st.currentRank ++ " in P"
             ++ toString currentPeriod }]
      else if st.previousRank < st.currentRank then
        let positionPenalty : ℤ := if 5 ≤ st.currentRank then 10 else 0
        [{ score := 15 + change * 10 + jsRound (periodProgress * 20) + positionPenalty,
           text := "⬇️ Dropped to #" ++ toString st.currentRank ++ " in P"
             ++ toString currentPeriod,
           isBad := true }]
      else []
    | none => []
  else []) ++
  -- 6. Today's PPG vs period PPG average
  (if 3 ≤ periodDays.length ∧ 0 < todayGP then
    let todayPPG := todayDayPts / (todayGP : ℚ)
    let found := periodDays.filterMap (findTeam franchise)
    let periodTotal : ℚ := (found.map (·.dayPts)).sum
    let periodGP : ℕ := (found.map (·.gp)).sum
    let periodPPG : ℚ := if 0 < periodGP then periodTotal / (periodGP : ℚ) else 0
    if 0 < periodPPG then
      let pct : ℤ := jsRound (((todayPPG - periodPPG) / periodPPG) * 100)
      if 30 ≤ pct then
        [{ score := min 75 (30 + jsRound (|(pct : ℚ)| * (4/10))),
           text := "💥 " ++ fixed2 todayPPG ++ " PPG today vs " ++ fixed2 periodPPG
             ++ " period avg" }]
      else if pct ≤ -30 then
        [{ score := min 75 (30 + jsRound (|(pct : ℚ)| * (4/10))),
           text := "📉 " ++ fixed2 todayPPG ++ " PPG today vs " ++ fixed2 periodPPG
             ++ " period avg",
           isBad := true }]
      else []
    else []
  else []) ++
  -- 7. Season rank (absent franchise has JS rank 0; when additionally the
  -- totals object is empty the source would print NaN where this prints 0)
  (let seasonTotals := teamTotals allDays
   let seasonSorted := sortBy (fun a b => decide (b.2 ≤ a.2)) seasonTotals
   let seasonRank := ((seasonSorted.findIdx? (fun p => p.1 == franchise)).map (· + 1)).getD 0
   let myTotal : ℚ := ((seasonTotals.find? (fun p => p.1 == franchise)).map (·.2)).getD 0
   if seasonRank = 1 then
     [{ score := 35, text := "👑 1st overall (" ++ toString (jsRound myTotal) ++ " pts)" }]
   else if seasonRank = seasonSorted.length then
     [{ score := 30, text := "📊 Last overall (" ++ toString (jsRound myTotal) ++ " pts)",
        isBad := true }]
   else []) ++
  -- 8. 3D trending
  (match avg3d with
   | some a3 =>
     if 0 < ppg then
       let pctChange : ℤ := jsRound (((a3 - ppg) / ppg) * 100)
       if 20 ≤ pctChange then
         [{ score := min 70 (40 + jsRound (|(pctChange : ℚ)| * (5/10))),
            text := "📈 3D avg " ++ fixed2 a3 ++ " — surging (+" ++ toString pctChange
              ++ "% vs season)" }]
       else if 8 ≤ pctChange then
         [{ score := 30,
            text := "📈 3D avg " ++ fixed2 a3 ++ " (up from " ++ fixed2 ppg ++ " season)" }]
       else if pctChange ≤ -20 then
         [{ score := min 70 (40 + jsRound (|(pctChange : ℚ)| * (5/10))),
            text := "📉 3D avg " ++ fixed2 a3 ++ " — slumping (" ++ toString pctChange
              ++ "% vs season)",
            isBad := true }]
       else if pctChange ≤ -8 then
         [{ score := 30,
            text := "📉 3D avg " ++ fixed2 a3 ++ " (down from " ++ fixed2 ppg ++ " season)",
            isBad := true }]
       else []
     else []
   | none => []) ++
  -- 9. Consistency
  (if 7 ≤ recent.length then
    let last7 := jsSliceLast 7 recent
    let aboveAvg := (last7.filter (fun d => decide (d.rank ≤ 3))).length
    if 6 ≤ aboveAvg then
      [{ score := 45, text := "🎯 Top 3 in " ++ toString aboveAvg ++ " of last 7 days" }]
    else if aboveAvg ≤ 1 then
      [{ score := 40, text := "🎯 Top 3 only " ++ toString aboveAvg ++ "x in last 7 days",
         isBad := true }]
    else []
  else []) ++
  -- 10. Period pace, best/worst of the season
  (if 3 ≤ periodDays.length then
    match projection with
    | some proj =>
      let allPeriodProjections := computeAllPeriodTotals allDays franchise
      if allPeriodProjections ≠ [] then
        let bestPeriod : ℚ := (((allPeriodProjections.map (·.2)).max?).getD 0)
        let worstPeriod : ℚ := (((allPeriodProjections.map (·.2)).min?).getD 0)
        let currentPace := proj.projected
        if bestPeriod * (105/100) < (currentPace : ℚ) then
          [{ score := 55, cat := some "proj",
             text := "🚀 On pace for best period (" ++ toString currentPace ++ " proj vs "
               ++ toString (jsRound bestPeriod) ++ " prev best)" }]
        else if (currentPace : ℚ) < worstPeriod * (95/100) ∧ 3 ≤ allPeriodProjections.length then
          [{ score := 50, cat := some "proj",
             text := "⚠️ On pace for worst period (" ++ toString currentPace ++ " proj vs "
               ++ toString (jsRound worstPeriod) ++ " prev worst)",
             isBad := true }]
        else []
      else []
    | none => []
  else []) ++
  -- 11. Comeback/collapse within period
  (if 5 ≤ periodRanked.length then
    let midpoint := periodRanked.length / 2
    match computePeriodRankAtDay (periodDays.take midpoint) franchise,
        computePeriodRankAtDay periodDays franchise with
    | some midRank, some currentRankInPeriod =>
      let jump : ℤ := (midRank : ℤ) - (currentRankInPeriod : ℤ)
      if 3 ≤ jump then
        [{ score := 55, text := "🔄 Was #" ++ toString midRank ++ " mid-period, now #"
             ++ toString currentRankInPeriod }]
      else if jump ≤ -3 then
        [{ score := 50, text := "🔄 Was #" ++ toString midRank ++ " mid-period, now #"
             ++ toString currentRankInPeriod,
           isBad := true }]
      else []
    | _, _ => []
  else []) ++
  -- 12. Drought (same trailing count as the bottom-half streak, so the
  -- suppression guard below makes this detector unreachable)
  (let drought := streakFromEnd (fun r => decide (3 < r.rank)) recent
   if 8 ≤ drought ∧ bottomStreak < 5 then
     [{ score := min 60 (30 + (drought : ℤ) * 3),
        text := "🏜️ " ++ toString drought ++ " days since finishing top 3",
        isBad := true }]
   else []) ++
  -- 13. Period record proximity (this season)
  (match projection with
   | some proj =>
     if 5 ≤ periodDays.length then
       let allPeriodTotals := computeAllPeriodTotals allDays franchise
       let allTimeBest : ℚ :=
         if allPeriodTotals ≠ [] then (((allPeriodTotals.map (·.2)).max?).getD 0) else 0
       if 0 < allTimeBest ∧ 0 < proj.periodPts then
         let remaining := allTimeBest - proj.periodPts
         if 0 < remaining ∧ remaining ≤ (proj.daysRemaining : ℚ) * 2 then
           [{ score := 50, cat := some "proj",
              text := "🏆 " ++ toString (jsRound remaining)
                ++ " pts from matching personal best period" }]
         else []
       else []
     else []
   | none => [])

/-- The `HISTORICAL COLOR` tier of `buildNarratives` (the body of the
`try` block), in source order.  Reached only when the archive fetches
succeed (`Archive.ok`). -/
def histColor (allDays : List Day) (franchise : String) (currentPeriod : ℕ)
    (projection : Option Projection) (todayScrapeTeams : List Team)
    (archive : Archive) : List Candidate :=
  let periodDays := periodDaysOf allDays currentPeriod
  let projConf := projConfidence projection
  -- Career milestone proximity
  careerMilestone (archive.careerTotalPts franchise)
    (match projection with | some p => p.periodPts | none => 0) ++
  -- Season pace vs historical seasons
  (match projection with
   | some _ =>
     if 3 ≤ currentPeriod then
       let currentSeasonPts : ℚ := allDays.foldl (fun sum day =>
         sum + (match findTeam franchise day with
                | some t => t.dayPts
                | none => 0)) 0
       match archive.seasonPace franchise currentPeriod (jsRound currentSeasonPts) with
       | some pace =>
         if 2 ≤ pace.historicalPaces.length then
           if (Int.cast pace.bestPace.totalThroughPeriod : ℚ) < currentSeasonPts then
             [{ score := 65,
                text := "📈 Best-ever pace through P" ++ toString currentPeriod
                  ++ " (prev: " ++ toString pace.bestPace.totalThroughPeriod ++ " in "
                  ++ toString pace.bestPace.season ++ ")" }]
           else if (Int.cast pace.bestPace.totalThroughPeriod : ℚ) * (95/100)
               ≤ currentSeasonPts then
             [{ score := 50,
                text := "📈 Tracking near best-ever pace through P" ++ toString currentPeriod
                  ++ " (record: " ++ toString pace.bestPace.totalThroughPeriod ++ " in "
                  ++ toString pace.bestPace.season ++ ")" }]
           else if currentSeasonPts < (Int.cast pace.worstPace.totalThroughPeriod : ℚ) * (105/100)
               ∧ 4 ≤ pace.historicalPaces.length then
             [{ score := 50,
                text := "📉 Slowest pace through P" ++ toString currentPeriod ++ " since "
                  ++ toString pace.worstPace.season }]
           else []
         else []
       | none => []
     else []
   | none => []) ++
  -- Period dominance
  (let dominance := archive.dominance currentPeriod franchise
   if 3 ≤ dominance.totalOccurrences then
     if 3 ≤ dominance.wins then
       [{ score := 55,
          text := "👑 Has won P" ++ toString currentPeriod ++ " " ++ toString dominance.wins
            ++ " times — most in league history" }]
     else if dominance.wins = 0 ∧ 5 ≤ dominance.totalOccurrences then
       [{ score := 50,
          text := "🏜️ Has never won a P" ++ toString currentPeriod ++ " (0-for-"
            ++ toString dominance.totalOccurrences ++ " all-time)" }]
     else
       match dominance.topWinner with
       | some tw =>
         if tw ≠ franchise ∧ 3 ≤ dominance.topWinnerWins then
           [{ score := 40,
              text := "📊 P" ++ toString currentPeriod ++ " belongs to "
                ++ ((jsLookup FRANCHISE_TO_OWNER tw).getD tw) ++ " ("
                ++ toString dominance.topWinnerWins ++ " wins all-time)" }]
         else []
       | none => []
   else []) ++
  -- H2H never-beaten, only when top 2 in the current period
  (if todayScrapeTeams ≠ [] ∧ 3 ≤ periodDays.length then
    match computePeriodStandings periodDays franchise with
    | some periodStandings =>
      if periodStandings.currentRank ≤ 2 then
        let allPeriodRanks := todayScrapeTeams.filterMap (fun t =>
          let f := resolveScrapeF t
          (computePeriodStandings periodDays f).map (fun s => (f, s.currentRank)))
        let sortedRanks := sortBy (fun a b => decide (a.2 ≤ b.2)) allPeriodRanks
        match sortedRanks.find? (fun r => !(r.1 == franchise) && decide (r.2 ≤ 2)) with
        | some rival =>
          match archive.h2h currentPeriod franchise rival.1 with
          | some h2h =>
            let rivalName := (jsLookup FRANCHISE_NAMES rival.1).getD rival.1
            if h2h.neverBeatenByB ∧ 3 ≤ h2h.total then
              [{ score := 60,
                 text := "💪 Undefeated vs " ++ rivalName ++ " in P" ++ toString currentPeriod
                   ++ " (" ++ toString h2h.winsA ++ "-0 all-time)" }]
            else if h2h.neverBeatenByA ∧ 3 ≤ h2h.total then
              [{ score := 55,
                 text := "😬 Never beaten " ++ rivalName ++ " in P" ++ toString currentPeriod
                   ++ " (0-" ++ toString h2h.winsB ++ " all-time)" }]
            else []
          | none => []
        | none => []
      else []
    | none => []
  else []) ++
  -- Franchise hot/cold streak across periods
  (match archive.matchupStreak franchise with
   | some streak =>
     if streak.mtype = "W" ∧ 3 ≤ streak.streak then
       [{ score := min 80 (40 + (streak.streak : ℤ) * 10),
          text := "🔥 " ++ toString streak.streak ++ "-period win streak" }]
     else if streak.mtype = "L" ∧ 3 ≤ streak.streak then
       match streak.lastWin with
       | some lastWin =>
         [{ score := min 75 (35 + (streak.streak : ℤ) * 10),
            text := "❄️ Hasn" ++ apos ++ "t won a period since P" ++ toString lastWin.period
              ++ " " ++ toString lastWin.season }]
       | none => []
     else []
   | none => []) ++
  -- Projected vs all-time league record / league worst for this period
  (match projection with
   | some projn =>
     if 0 < projn.projected then
       (match archive.leagueRecord currentPeriod with
        | some leagueRecord =>
          if 0 < leagueRecord.fpts then
            let recordHolder :=
              (jsLookup FRANCHISE_NAMES leagueRecord.franchise).getD leagueRecord.franchise
            if leagueRecord.fpts < (Int.cast projn.projected : ℚ) then
              [{ score := jsRound (80 * projConf), cat := some "proj",
                 text := "🏆 Proj " ++ toString projn.projected ++ " — would beat all-time P"
                   ++ toString currentPeriod ++ " record (" ++ toString (jsRound leagueRecord.fpts)
                   ++ " by " ++ recordHolder ++ ", " ++ toString leagueRecord.season ++ ")" }]
            else if leagueRecord.fpts * (9/10) ≤ (Int.cast projn.projected : ℚ) then
              [{ score := jsRound (60 * projConf), cat := some "proj",
                 text := "🏆 Proj " ++ toString projn.projected ++ " — closing on P"
                   ++ toString currentPeriod ++ " record (" ++ toString (jsRound leagueRecord.fpts)
                   ++ " by " ++ recordHolder ++ ", " ++ toString leagueRecord.season ++ ")" }]
            else []
          else []
        | none => []) ++
       (let periodHistory := archive.periodHistory currentPeriod
        if 6 ≤ periodHistory.length then
          match periodHistory with
          | [] => []
          | h :: t =>
            let leagueWorst := reduceMinFpts h t
            if (Int.cast projn.projected : ℚ) < leagueWorst.fpts then
              let worstHolder :=
                (jsLookup FRANCHISE_NAMES leagueWorst.franchise).getD leagueWorst.franchise
              [{ score := jsRound (65 * projConf), cat := some "proj",
                 text := "📉 Proj " ++ toString projn.projected ++ " — tracking worst P"
                   ++ toString currentPeriod ++ " in league history ("
                   ++ toString (jsRound leagueWorst.fpts) ++ " by " ++ worstHolder ++ ", "
                   ++ toString leagueWorst.season ++ ")" }]
            else []
        else [])
     else []
   | none => []) ++
  -- Projected vs franchise's own best/worst for this period
  (match projection with
   | some projn =>
     if 0 < projn.projected then
       (match archive.franchiseBest currentPeriod franchise with
        | some myBest =>
          if 0 < myBest.fpts then
            if myBest.fpts < (Int.cast projn.projected : ℚ) then
              [{ score := jsRound (70 * projConf), cat := some "proj",
                 text := "📈 Proj " ++ toString projn.projected ++ " — would be personal best P"
                   ++ toString currentPeriod ++ " (prev: " ++ toString (jsRound myBest.fpts)
                   ++ " in " ++ toString myBest.season ++ ")" }]
            else if myBest.fpts * (9/10) ≤ (Int.cast projn.projected : ℚ) then
              [{ score := jsRound (45 * projConf), cat := some "proj",
                 text := "📈 Proj " ++ toString projn.projected ++ " — nearing personal best P"
                   ++ toString currentPeriod ++ " (" ++ toString (jsRound myBest.fpts)
                   ++ " in " ++ toString myBest.season ++ ")" }]
            else []
          else []
        | none => []) ++
       (let myHistory := (archive.periodHistory currentPeriod).filter
          (fun h => h.franchise == franchise)
        if 3 ≤ myHistory.length then
          match myHistory with
          | [] => []
          | h :: t =>
            let myWorst := reduceMinFpts h t
            if (Int.cast projn.projected : ℚ) < myWorst.fpts then
              [{ score := jsRound (55 * projConf), cat := some "proj",
                 text := "📉 Proj " ++ toString projn.projected ++ " — tracking personal worst P"
                   ++ toString currentPeriod ++ " (prev: " ++ toString (jsRound myWorst.fpts)
                   ++ " in " ++ toString myWorst.season ++ ")" }]
            else []
        else [])
     else []
   | none => [])

/-- The selection walk over score-sorted candidates: accept until 2 are
picked, skipping a candidate whose category was already accepted. -/
def selectTop : List Candidate → List String → List String → List String
  | [], picked, _ => picked
  | c :: rest, picked, usedCats =>
    if 2 ≤ picked.length then picked
    else
      match c.cat with
      | some k =>
        if usedCats.contains k then selectTop rest picked usedCats
        else selectTop rest (picked ++ [c.text]) (usedCats ++ [k])
      | none => selectTop rest (picked ++ [c.text]) usedCats

/-- The same selection walk, returning the accepted candidates rather than
their texts (used to state the category-diversity property; see the
simulation theorem relating it to `selectTop`). -/
def selectTopC : List Candidate → List Candidate → List String → List Candidate
  | [], picked, _ => picked
  | c :: rest, picked, usedCats =>
    if 2 ≤ picked.length then picked
    else
      match c.cat with
      | some k =>
        if usedCats.contains k then selectTopC rest picked usedCats
        else selectTopC rest (picked ++ [c]) (usedCats ++ [k])
      | none => selectTopC rest (picked ++ [c]) usedCats

/-- `candidates.sort((a, b) => b.score - a.score)`: stable descending sort
by score. -/
def sortCandidates (cs : List Candidate) : List Candidate :=
  sortBy (fun a b => decide (b.score ≤ a.score)) cs

/-- The fallback fill loop: append each fallback not already picked until
2 narratives are filled. -/
def fillFallbacks : List String → List String → List String
  | [], picked => picked
  | fb :: rest, picked =>
    if 2 ≤ picked.length then picked
    else if picked.contains fb then fillFallbacks rest picked
    else fillFallbacks rest (picked ++ [fb])

/-- The strictly ordered fallback lenses of `buildNarratives` (run only
when the scored selection produced fewer than 2 narratives). -/
def fallbackLenses (allDays : List Day) (franchise : String) (period : ℕ)
    (todayDayPts : ℚ) (todayGP : ℕ) (ppg : ℚ)
    (todayScrapeTeams : List Team) : List String :=
  let currentPeriod := period
  let periodDays := periodDaysOf allDays currentPeriod
  -- Lens 1: today vs other teams, from the live scrape
  (if todayScrapeTeams ≠ [] ∧ 0 < todayDayPts then
    let todaySorted := sortBy (fun a b => decide (b.dayPts ≤ a.dayPts)) todayScrapeTeams
    let myRankToday :=
      ((todaySorted.findIdx? (fun t => resolveScrapeF t == franchise)).map (· + 1)).getD 0
    match todaySorted with
    | [] => []
    | leader :: rest =>
      let leaderFranchise := resolveScrapeF leader
      if myRankToday = 1 ∧ 1 < todaySorted.length then
        let margin := todayDayPts - ((rest.head?.map (·.dayPts)).getD 0)
        if 0 < margin then ["Won the day by " ++ toString (jsRound margin) ++ " pts"]
        else []
      else if leaderFranchise ≠ franchise then
        let gap := leader.dayPts - todayDayPts
        if 0 < gap then
          [toString (jsRound gap) ++ " pts behind today" ++ apos ++ "s leader ("
            ++ ((jsLookup FRANCHISE_NAMES leaderFranchise).getD leaderFranchise) ++ ")"]
        else []
      else []
  else []) ++
  -- Lens 2: today's PPG vs own season history
  (if 0 < todayGP ∧ 0 < ppg then
    let todayPPG := todayDayPts / (todayGP : ℚ)
    let pctVsSeason : ℤ := jsRound (((todayPPG - ppg) / ppg) * 100)
    if 25 ≤ pctVsSeason then
      [fixed2 todayPPG ++ " PPG today — " ++ toString pctVsSeason ++ "% above season avg"]
    else if pctVsSeason ≤ -25 then
      [fixed2 todayPPG ++ " PPG today — " ++ toString |pctVsSeason| ++ "% below season avg"]
    else []
  else []) ++
  -- Lens 3: this period vs other teams
  (if 2 ≤ periodDays.length then
    match computePeriodRankAtDay periodDays franchise with
    | some currentPeriodRank =>
      let periodTotals := teamTotals periodDays
      let myPeriodPts : ℚ := ((periodTotals.find? (fun p => p.1 == franchise)).map (·.2)).getD 0
      let periodSorted := sortBy (fun a b => decide (b.2 ≤ a.2)) periodTotals
      if currentPeriodRank ≤ 2 ∧ 1 < periodSorted.length then
        let secondPts : ℚ := ((periodSorted[1]?.map (·.2)).getD 0)
        let lead := myPeriodPts - secondPts
        if currentPeriodRank = 1 ∧ 0 < lead then
          ["Leading P" ++ toString currentPeriod ++ " by " ++ toString (jsRound lead) ++ " pts"]
        else
          ["#" ++ toString currentPeriodRank ++ " in P" ++ toString currentPeriod ++ " ("
            ++ toString (jsRound myPeriodPts) ++ " pts)"]
      else if (periodSorted.length : ℤ) - 1 ≤ (currentPeriodRank : ℤ) then
        ["#" ++ toString currentPeriodRank ++ " in P" ++ toString currentPeriod ++ " ("
          ++ toString (jsRound myPeriodPts) ++ " pts)"]
      else []
    | none => []
  else []) ++
  -- Lens 4: this period vs own other periods
  (let ownPeriodTotals := computeAllPeriodTotals allDays franchise
   if 2 ≤ ownPeriodTotals.length ∧ 3 ≤ periodDays.length then
     let myPeriodPts : ℚ :=
       ((periodDays.filterMap (findTeam franchise)).map (·.dayPts)).sum
     let myPeriodPPG := myPeriodPts / (periodDays.length : ℚ)
     let prevPPGs := ((ownPeriodTotals.filter (fun p => !(p.1 == currentPeriod))).map (fun p =>
         let days := (allDays.filter (fun d => d.period == p.1)).length
         if 0 < days then p.2 / (days : ℚ) else 0)).filter (fun x => decide (0 < x))
     if prevPPGs ≠ [] then
       let avgPrevPPG := prevPPGs.sum / (prevPPGs.length : ℚ)
       let pctDiff : ℤ :=
         if 0 < avgPrevPPG then jsRound (((myPeriodPPG - avgPrevPPG) / avgPrevPPG) * 100) else 0
       if 15 ≤ pctDiff then
         ["P" ++ toString currentPeriod ++ " pace " ++ toString pctDiff ++ "% above career avg"]
       else if pctDiff ≤ -15 then
         ["P" ++ toString currentPeriod ++ " pace " ++ toString |pctDiff| ++ "% below career avg"]
       else []
     else []
   else [])

/-- The absolute last resort of `buildNarratives`: projection line, else a
season-average line when `ppg` is truthy (nonzero). -/
def lastResort (projection : Option Projection) (ppg : ℚ) : List String :=
  match projection with
  | some p => ["Proj finish: " ++ toString p.projected ++ " pts"]
  | none => if ppg ≠ 0 then ["Season avg: " ++ fixed2 ppg ++ " PPG"] else []

/-- `buildNarratives` from the narrative engine: empty with under 2 days
of history; otherwise score all candidates, pick the top 2 avoiding
duplicate categories, then fall back to the ordered lenses and the
guaranteed last-resort line. -/
def buildNarratives (allDays : List Day) (franchise : String) (period : ℕ)
    (todayDayPts : ℚ) (todayGP : ℕ) (projection : Option Projection)
    (avg3d : Option ℚ) (ppg : ℚ) (todayScrapeTeams : List Team)
    (archive : Archive) : List String :=
  if allDays.length < 2 then []
  else
    let candidates :=
      localCandidates allDays franchise period todayDayPts todayGP projection avg3d ppg ++
      (if archive.ok then
        histColor allDays franchise period projection todayScrapeTeams archive
      else [])
    let picked := selectTop (sortCandidates candidates) [] []
    if picked.length < 2 then
      let fallbacks := fallbackLenses allDays franchise period todayDayPts todayGP ppg
        todayScrapeTeams
      let filled := fillFallbacks fallbacks picked
      if filled.length = 0 then lastResort projection ppg else filled
    else picked

/-- `computeStreaks(allDays, franchise)` from analyze.js (the older,
non-scored narrative pass used by its `buildNightlyAnalysis`). -/
def computeStreaks (allDays : List Day) (franchise : String) : List String :=
  if allDays.length < 2 then []
  else
    let rankedDays := allDays.map (rankedDayFor franchise)
    let recent := jsSliceLast 30 rankedDays
    let winStreak := streakFromEnd (fun r => r.rank == 1) recent
    let podiumStreak := streakFromEnd (fun r => decide (r.rank ≤ 3)) recent
    let bottomStreak := streakFromEnd (fun r => decide (3 < r.rank)) recent
    (if 2 ≤ winStreak then ["🔥 " ++ toString winStreak ++ "-day win streak"] else []) ++
    (if 3 ≤ podiumStreak ∧ winStreak < 2 then
      ["📈 " ++ toString podiumStreak ++ "-day podium streak"] else []) ++
    (if 5 ≤ bottomStreak then
      ["⚠️ " ++ toString bottomStreak ++ "-day bottom-half streak"] else []) ++
    (let currentPeriod := ((allDays.getLast?).map (·.period)).getD 0
     let periodDays := allDays.filter (fun d => d.period == currentPeriod)
     if 1 < periodDays.length then
       match periodDays.getLast? with
       | some lastDay =>
         match findTeam franchise lastDay with
         | some teamToday =>
           if 0 < teamToday.dayPts then
             let bestInPeriod : ℚ := periodDays.foldl (fun best day =>
               match findTeam franchise day with
               | some t => if best < t.dayPts then t.dayPts else best
               | none => best) 0
             if bestInPeriod ≤ teamToday.dayPts then ["⭐ Best day this period"] else []
           else []
         | none => []
       | none => []
     else [])

/-- `buildTrendNarrative(avg3d, avg7d, ppg)` from analyze.js (`avg7d` is
accepted but unused there too). -/
def buildTrendNarrative (avg3d _avg7d : Option ℚ) (ppg : ℚ) : Option String :=
  match avg3d with
  | none => none
  | some a3 =>
    let diff3 := a3 - ppg
    let pctChange : ℤ := if 0 < ppg then jsRound ((diff3 / ppg) * 100) else 0
    if |pctChange| < 8 then none
    else if 20 ≤ pctChange then
      some ("📈 3D avg " ++ fixed2 a3 ++ " — surging (+" ++ toString pctChange
        ++ "% above season)")
    else if 8 ≤ pctChange then
      some ("📈 3D avg " ++ fixed2 a3 ++ " (up from " ++ fixed2 ppg ++ " season)")
    else if pctChange ≤ -20 then
      some ("📉 3D avg " ++ fixed2 a3 ++ " — slumping (" ++ toString pctChange
        ++ "% below season)")
    else if pctChange ≤ -8 then
      some ("📉 3D avg " ++ fixed2 a3 ++ " (down from " ++ fixed2 ppg ++ " season)")
    else none

/-- Per-team stats bundle produced by `buildNightlyAnalysis` (rank and
season fields start at their pre-assignment defaults). -/
structure TeamStat where
  franchise : String
  name : String
  dayPts : ℚ
  projPts : ℚ
  gp : ℕ
  ppg : ℚ
  avg3d : Option ℚ
  avg7d : Option ℚ
  vsProj : Option ℚ
  streaks : List String
  projection : Option Projection
  dayRank : ℕ := 0
  seasonPts : ℚ := 0
  seasonRank : ℕ := 0
deriving Repr, DecidableEq

/-- Today's scrape object consumed by `buildNightlyAnalysis`. -/
structure Scrape where
  date : String
  period : ℕ
  scrapedAt : String
  teams : List Team
deriving Repr, DecidableEq

/-- Output shape of `buildNightlyAnalysis`. -/
structure Analysis where
  date : String
  period : ℕ
  scrapedAt : String
  teams : List TeamStat
  seasonRanked : List TeamStat
  periodDaysPlayed : ℕ
  totalSeasonDays : ℕ
deriving Repr, DecidableEq

/-- `t.franchise || toFranchise(t.name) || t.name` (analyze.js team-stat
resolution; empty strings are falsy). -/
def resolveStatF (t : Team) : String :=
  if t.franchise ≠ "" then t.franchise
  else
    match toFranchise t.name with
    | some f => f
    | none => t.name

/-- `t.franchise || toFranchise(t.name)` — the key under which a record's
team row contributes to the season-totals object (`null` contributes
nothing). -/
def histKey (t : Team) : Option String :=
  if t.franchise ≠ "" then some t.franchise else toFranchise t.name

/-- `if (f && seasonTotals[f] !== undefined) seasonTotals[f] += v`:
add to an existing key only, never inserting. -/
def addKnown (acc : List (String × ℚ)) (k : Option String) (v : ℚ) : List (String × ℚ) :=
  match k with
  | some f =>
    if acc.any (fun p => p.1 == f) then
      acc.map (fun p => if p.1 == f then (p.1, p.2 + v) else p)
    else acc
  | none => acc

/-- Fold one record's team rows into the season-totals object. -/
def addTeamsKnown (acc : List (String × ℚ)) (ts : List Team) : List (String × ℚ) :=
  ts.foldl (fun a t => addKnown a (histKey t) t.dayPts) acc

/-- `for (const t of teamStats) seasonTotals[t.franchise] = 0`: the
zero-initialised totals object, keyed in first-appearance order. -/
def initTotals (stats : List TeamStat) : List (String × ℚ) :=
  stats.foldl (fun acc t =>
    if acc.any (fun p => p.1 == t.franchise) then acc
    else acc ++ [(t.franchise, (0 : ℚ))]) []

/-- The season-totals object of `buildNightlyAnalysis`: zero-initialised
for every resolved team of today's scrape, summed over all loaded records,
plus today's scrape only when today's date is absent from the store. -/
def seasonTotalsMap (allDays : List Day) (stats : List TeamStat)
    (scrapeTeams : List Team) (today : String) : List (String × ℚ) :=
  let afterHist := allDays.foldl (fun acc day => addTeamsKnown acc day.teams)
    (initTotals stats)
  if allDays.any (fun d => d.date == today) then afterHist
  else addTeamsKnown afterHist scrapeTeams

/-- `seasonTotals[f] || 0`. -/
def lookupTotal (acc : List (String × ℚ)) (f : String) : ℚ :=
  ((acc.find? (fun p => p.1 == f)).map (·.2)).getD 0

/-- Direct sum of the `dayPts` a list of team rows contributes under key
`f` (specification-side view of the totals object folds). -/
def keyedSum (ts : List Team) (f : String) : ℚ :=
  ((ts.filter (fun t => histKey t == some f)).map (·.dayPts)).sum

/-- `buildNightlyAnalysis(todayScrape)` from analyze.js, with the loaded
daily store, today's date fallback and `scrapedAt` fallback passed as
parameters (the source reads them from disk and the clock).  The source
assigns `dayRank`/`seasonRank` by mutating shared team objects; here the
day-ordered view is reconstructed by a stable sort on the distinct
`dayRank` keys after the season ranks are assigned. -/
def buildNightlyAnalysis (allDays : List Day) (todayScrape : Scrape)
    (nowDate nowIso : String) : Analysis :=
  let period := todayScrape.period
  let today := if todayScrape.date ≠ "" then todayScrape.date else nowDate
  let teamStats : List TeamStat := todayScrape.teams.map (fun t =>
    let franchise := resolveStatF t
    let avg3d := rollingAvgPPG allDays franchise 3
    let avg7d := rollingAvgPPG allDays franchise 7
    let ppg := seasonPPG allDays franchise
    let streaks0 := computeStreaks allDays franchise
    let projection := projectPeriodFinish allDays franchise period
    let vsProj := if t.projPts ≠ 0 then some (round2 (t.dayPts - t.projPts)) else none
    let streaks1 :=
      match buildTrendNarrative avg3d avg7d ppg with
      | some trendNar => if streaks0.length < 2 then streaks0 ++ [trendNar] else streaks0
      | none => streaks0
    let streaks2 := if streaks1 = [] then lastResort projection ppg else streaks1
    { franchise := franchise, name := t.name, dayPts := t.dayPts, projPts := t.projPts,
      gp := t.gp, ppg := ppg, avg3d := avg3d, avg7d := avg7d, vsProj := vsProj,
      streaks := streaks2, projection := projection })
  let ranked := sortBy (fun a b => decide (b.dayPts ≤ a.dayPts)) teamStats
  let withDay := ranked.enum.map (fun p => { p.2 with dayRank := p.1 + 1 })
  let totals := seasonTotalsMap allDays teamStats todayScrape.teams today
  let withSeason := withDay.map (fun t =>
    { t with seasonPts := round1 (lookupTotal totals t.franchise) })
  let seasonSorted := sortBy (fun a b => decide (b.seasonPts ≤ a.seasonPts)) withSeason
  let seasonRankedF := seasonSorted.enum.map (fun p => { p.2 with seasonRank := p.1 + 1 })
  let teamsOut := sortBy (fun a b => decide (a.dayRank ≤ b.dayRank)) seasonRankedF
  { date := today, period := period,
    scrapedAt := if todayScrape.scrapedAt ≠ "" then todayScrape.scrapedAt else nowIso,
    teams := teamsOut,
    seasonRanked := seasonRankedF,
    periodDaysPlayed := (periodDaysOf allDays period).length,
    totalSeasonDays := allDays.length }

/-- An archive that answers every query with "no data" (reachable, but
recording nothing about any franchise). -/
def archiveNoData : Archive :=
  { ok := true, careerTotalPts := fun _ => 0, seasonPace := fun _ _ _ => none,
    dominance := fun _ _ => ⟨0, 0, none, 0⟩, h2h := fun _ _ _ => none,
    matchupStreak := fun _ => none, leagueRecord := fun _ => none,
    periodHistory := fun _ => [], franchiseBest := fun _ _ => none }

/-- Concrete store day: only JGC scored on 2025-10-18 (period 1). -/
def dayOct18 : Day := ⟨"2025-10-18", 1, [⟨"JGC", "Gaucho Chudpumpers", 2, 0, 1⟩]⟩

/-- Concrete store day: only JGC scored on 2025-10-19 (period 1). -/
def dayOct19 : Day := ⟨"2025-10-19", 1, [⟨"JGC", "Gaucho Chudpumpers", 3, 0, 1⟩]⟩

/-- A two-day loaded store in which BEW never appears. -/
def storeTwoDays : List Day := [dayOct18, dayOct19]

/-- Today's scraped teams for the two-day scenario: BEW exists but scored
nothing today. -/
def scrapeTwoTeams : List Team :=
  [⟨"JGC", "Gaucho Chudpumpers", 2, 0, 1⟩, ⟨"BEW", "Endless Winter", 0, 0, 0⟩]

/-- Twelve period-1 days on which only franchise A appears, with a tiny
daily score, driving the period projection's rounding below the period
total. -/
def storeTwelveDays : List Day :=
  List.replicate 12 ⟨"2025-10-07", 1, [⟨"A", "A", 1/30, 0, 1⟩]⟩

/-- A minimal one-team scrape against an empty store, used to witness the
season-totals bookkeeping. -/
def scrapeOneTeam : Scrape :=
  ⟨"2025-10-20", 2, "scrape", [⟨"JGC", "Gaucho Chudpumpers", 2, 0, 1⟩]⟩

theorem insertLe_perm {α : Type} (le : α → α → Bool) (x : α) (l : List α) :
    (insertLe le x l).Perm (x :: l) := by
  induction l with
  | nil => exact .refl _
  | cons y ys ih =>
    simp only [insertLe]
    split
    · exact .refl _
    · exact (ih.cons y).trans (List.Perm.swap x y ys)

theorem sortBy_perm {α : Type} (le : α → α → Bool) (l : List α) :
    (sortBy le l).Perm l := by
  induction l with
  | nil => exact .refl _
  | cons x xs ih => exact (insertLe_perm le x (sortBy le xs)).trans (ih.cons x)

theorem sortBy_length {α : Type} (le : α → α → Bool) (l : List α) :
    (sortBy le l).length = l.length :=
  (sortBy_perm le l).length_eq

theorem mem_insertLe {α : Type} {le : α → α → Bool} {x a : α} {l : List α} :
    a ∈ insertLe le x l ↔ a = x ∨ a ∈ l := by
  rw [(insertLe_perm le x l).mem_iff, List.mem_cons]

theorem insertLe_sorted_cand {x : Candidate} {l : List Candidate}
    (h : l.Pairwise (fun a b : Candidate => b.score ≤ a.score)) :
    (insertLe (fun a b => decide (b.score ≤ a.score)) x l).Pairwise
      (fun a b : Candidate => b.score ≤ a.score) := by
  induction l with
  | nil => simp [insertLe]
  | cons y ys ih =>
    simp only [insertLe]
    rcases List.pairwise_cons.mp h with ⟨hy, hys⟩
    split
    · rename_i hle
      rw [decide_eq_true_eq] at hle
      refine List.pairwise_cons.mpr ⟨?_, h⟩
      intro b hb
      rcases List.mem_cons.mp hb with hb | hb
      · subst hb; exact hle
      · exact le_trans (hy b hb) hle
    · rename_i hle
      rw [decide_eq_true_eq] at hle
      refine List.pairwise_cons.mpr ⟨?_, ih hys⟩
      intro b hb
      rcases mem_insertLe.mp hb with hb | hb
      · subst hb; omega
      · exact hy b hb

theorem sortCandidates_sorted (cs : List Candidate) :
    (sortCandidates cs).Pairwise (fun a b : Candidate => b.score ≤ a.score) := by
  unfold sortCandidates
  induction cs with
  | nil => simp [sortBy]
  | cons x xs ih => exact insertLe_sorted_cand ih

theorem selectTop_map_text : ∀ (cs picked : List Candidate) (used : List String),
    selectTop cs (picked.map (·.text)) used = (selectTopC cs picked used).map (·.text) := by
  intro cs
  induction cs with
  | nil => intro picked used; rfl
  | cons c rest ih =>
    intro picked used
    by_cases h2 : 2 ≤ picked.length
    · simp [selectTop, selectTopC, h2]
    · cases hc : c.cat with
      | none =>
        simp only [selectTop, selectTopC, List.length_map, if_neg h2, hc]
        simpa using ih (picked ++ [c]) used
      | some k =>
        cases hk : used.contains k with
        | true =>
          simp only [selectTop, selectTopC, List.length_map, if_neg h2, hc, hk, if_pos]
          exact ih picked used
        | false =>
          simp only [selectTop, selectTopC, List.length_map, if_neg h2, hc, hk,
            Bool.false_eq_true, if_false]
          simpa using ih (picked ++ [c]) (used ++ [k])

theorem selectTop_length_le : ∀ (cs : List Candidate) (picked used : List String),
    picked.length ≤ 2 → (selectTop cs picked used).length ≤ 2 := by
  intro cs
  induction cs with
  | nil => intro picked used h; exact h
  | cons c rest ih =>
    intro picked used h
    by_cases h2 : 2 ≤ picked.length
    · simpa [selectTop, h2] using h
    · cases hc : c.cat with
      | none =>
        simp only [selectTop, if_neg h2, hc]
        exact ih (picked ++ [c.text]) used (by simp; omega)
      | some k =>
        cases hk : used.contains k with
        | true =>
          simp only [selectTop, if_neg h2, hc, hk, if_pos]
          exact ih picked used h
        | false =>
          simp only [selectTop, if_neg h2, hc, hk, Bool.false_eq_true, if_false]
          exact ih (picked ++ [c.text]) (used ++ [k]) (by simp; omega)

theorem selectTop_length_ge : ∀ (cs : List Candidate) (picked used : List String),
    picked.length ≤ (selectTop cs picked used).length := by
  intro cs
  induction cs with
  | nil => intro picked used; simp [selectTop]
  | cons c rest ih =>
    intro picked used
    by_cases h2 : 2 ≤ picked.length
    · simp [selectTop, h2]
    · cases hc : c.cat with
      | none =>
        simp only [selectTop, if_neg h2, hc]
        have := ih (picked ++ [c.text]) used
        simp at this
        omega
      | some k =>
        cases hk : used.contains k with
        | true =>
          simp only [selectTop, if_neg h2, hc, hk, if_pos]
          exact ih picked used
        | false =>
          simp only [selectTop, if_neg h2, hc, hk, Bool.false_eq_true, if_false]
          have := ih (picked ++ [c.text]) (used ++ [k])
          simp at this
          omega

theorem fillFallbacks_length_le : ∀ (fbs picked : List String),
    picked.length ≤ 2 → (fillFallbacks fbs picked).length ≤ 2 := by
  intro fbs
  induction fbs with
  | nil => intro picked h; exact h
  | cons fb rest ih =>
    intro picked h
    by_cases h2 : 2 ≤ picked.length
    · simpa [fillFallbacks, h2] using h
    · by_cases hmem : picked.contains fb
      · simp only [fillFallbacks, if_neg h2, hmem, if_pos]
        exact ih picked h
      · simp only [fillFallbacks, if_neg h2]
        rw [if_neg hmem]
        exact ih (picked ++ [fb]) (by simp; omega)

theorem fillFallbacks_length_ge : ∀ (fbs picked : List String),
    picked.length ≤ (fillFallbacks fbs picked).length := by
  intro fbs
  induction fbs with
  | nil => intro picked; simp [fillFallbacks]
  | cons fb rest ih =>
    intro picked
    by_cases h2 : 2 ≤ picked.length
    · simp [fillFallbacks, h2]
    · by_cases hmem : picked.contains fb
      · simp only [fillFallbacks, if_neg h2, hmem, if_pos]
        exact ih picked
      · simp only [fillFallbacks, if_neg h2]
        rw [if_neg hmem]
        have := ih (picked ++ [fb])
        simp at this
        omega

theorem selectTopC_pairwise_aux : ∀ (cs picked : List Candidate) (used : List String),
    (∀ c ∈ picked, ∀ k, c.cat = some k → used.contains k = true) →
    picked.Pairwise (fun a b => ∀ k, a.cat = some k → b.cat ≠ some k) →
    (selectTopC cs picked used).Pairwise
      (fun a b => ∀ k, a.cat = some k → b.cat ≠ some k) := by
  intro cs
  induction cs with
  | nil => intro picked used _ hp; exact hp
  | cons c rest ih =>
    intro picked used hinv hp
    by_cases h2 : 2 ≤ picked.length
    · simpa [selectTopC, h2] using hp
    · cases hc : c.cat with
      | none =>
        simp only [selectTopC, if_neg h2, hc]
        refine ih (picked ++ [c]) used ?_ ?_
        · intro c' hc' k hk
          rcases List.mem_append.mp hc' with h | h
          · exact hinv c' h k hk
          · simp at h
            subst h
            rw [hc] at hk
            cases hk
        · refine List.pairwise_append.mpr ⟨hp, List.pairwise_singleton _ _, ?_⟩
          intro a _ b hb k _
          simp at hb
          subst hb
          rw [hc]
          simp
      | some k0 =>
        cases hk : used.contains k0 with
        | true =>
          simp only [selectTopC, if_neg h2, hc, hk, if_pos]
          exact ih picked used hinv hp
        | false =>
          simp only [selectTopC, if_neg h2, hc, hk, Bool.false_eq_true, if_false]
          refine ih (picked ++ [c]) (used ++ [k0]) ?_ ?_
          · intro c' hc' k hkk
            rcases List.mem_append.mp hc' with h | h
            · have hcu := hinv c' h k hkk
              simp at hcu ⊢
              exact Or.inl hcu
            · simp at h
              subst h
              rw [hc] at hkk
              have hkeq := Option.some.inj hkk
              simp [hkeq]
          · refine List.pairwise_append.mpr ⟨hp, List.pairwise_singleton _ _, ?_⟩
            intro a ha b hb k hkk
            simp at hb
            subst hb
            rw [hc]
            intro hcon
            have hkeq := Option.some.inj hcon
            have hcu := hinv a ha k hkk
            rw [← hkeq] at hcu
            rw [hcu] at hk
            cases hk

/-- Claim C2: the selection step walks candidates in descending score
order (stable-sorted) and skips any candidate whose category was already
accepted, so the selected list (at most 2 entries, texts of the selected
candidates) never contains two candidates sharing the same non-null
category tag. -/
theorem narrative_selection_category_diverse : ∀ cs : List Candidate,
    (sortCandidates cs).Pairwise (fun a b : Candidate => b.score ≤ a.score) ∧
    selectTop (sortCandidates cs) [] [] =
      (selectTopC (sortCandidates cs) [] []).map (·.text) ∧
    (selectTopC (sortCandidates cs) [] []).length ≤ 2 ∧
    (selectTopC (sortCandidates cs) [] []).Pairwise
      (fun a b => ∀ k, a.cat = some k → b.cat ≠ some k) := by
  intro cs
  have hsim := selectTop_map_text (sortCandidates cs) [] []
  simp only [List.map_nil] at hsim
  refine ⟨sortCandidates_sorted cs, hsim, ?_, ?_⟩
  · have := selectTop_length_le (sortCandidates cs) [] [] (by simp)
    rw [hsim, List.length_map] at this
    exact this
  · exact selectTopC_pairwise_aux (sortCandidates cs) [] [] (by simp) (by simp)

theorem assembleNarr_props (cands : List Candidate) (fallbacks : List String)
    (projection : Option Projection) (ppg : ℚ) :
    (if (selectTop (sortCandidates cands) [] []).length < 2 then
       (if (fillFallbacks fallbacks (selectTop (sortCandidates cands) [] [])).length = 0
        then lastResort projection ppg
        else fillFallbacks fallbacks (selectTop (sortCandidates cands) [] []))
     else selectTop (sortCandidates cands) [] []).length ≤ 2 ∧
    ((projection ≠ none ∨ ppg ≠ 0) →
     (if (selectTop (sortCandidates cands) [] []).length < 2 then
       (if (fillFallbacks fallbacks (selectTop (sortCandidates cands) [] [])).length = 0
        then lastResort projection ppg
        else fillFallbacks fallbacks (selectTop (sortCandidates cands) [] []))
      else selectTop (sortCandidates cands) [] []) ≠ []) := by
  have hple : (selectTop (sortCandidates cands) [] []).length ≤ 2 :=
    selectTop_length_le _ [] [] (by simp)
  by_cases hfew : (selectTop (sortCandidates cands) [] []).length < 2
  · rw [if_pos hfew]
    have hfle : (fillFallbacks fallbacks (selectTop (sortCandidates cands) [] [])).length ≤ 2 :=
      fillFallbacks_length_le _ _ hple
    by_cases hf0 : (fillFallbacks fallbacks (selectTop (sortCandidates cands) [] [])).length = 0
    · rw [if_pos hf0]
      constructor
      · cases projection with
        | some p => simp [lastResort]
        | none =>
          by_cases hppg : ppg = 0
          · simp [lastResort, hppg]
          · simp [lastResort, hppg]
      · intro h
        cases projection with
        | some p => simp [lastResort]
        | none =>
          rcases h with h | h
          · exact absurd rfl h
          · simp [lastResort, h]
    · rw [if_neg hf0]
      exact ⟨hfle, fun _ => by
        intro hnil
        exact hf0 (by rw [hnil]; rfl)⟩
  · rw [if_neg hfew]
    refine ⟨hple, fun _ => ?_⟩
    intro hnil
    rw [hnil] at hfew
    simp at hfew

/-- Claim C1 (amended): `buildNarratives` returns the empty list when the
loaded history has fewer than 2 days; its result always has at most 2
entries; and with at least 2 days of history it is nonempty whenever a
period projection exists or the season PPG is nonzero.  (When a franchise
has no projection and a zero season PPG — e.g. it appears in no loaded
record — the result can be empty; see the counterexample.) -/
theorem buildNarratives_amended : ∀ (allDays : List Day) (franchise : String) (period : ℕ)
    (todayDayPts : ℚ) (todayGP : ℕ) (projection : Option Projection) (avg3d : Option ℚ)
    (ppg : ℚ) (todayScrapeTeams : List Team) (archive : Archive),
    (allDays.length < 2 →
      buildNarratives allDays franchise period todayDayPts todayGP projection avg3d ppg
        todayScrapeTeams archive = []) ∧
    (buildNarratives allDays franchise period todayDayPts todayGP projection avg3d ppg
        todayScrapeTeams archive).length ≤ 2 ∧
    (2 ≤ allDays.length → (projection ≠ none ∨ ppg ≠ 0) →
      buildNarratives allDays franchise period todayDayPts todayGP projection avg3d ppg
        todayScrapeTeams archive ≠ []) := by
  intro allDays franchise period todayDayPts todayGP projection avg3d ppg todayScrapeTeams archive
  by_cases hlt : allDays.length < 2
  · refine ⟨fun _ => by simp [buildNarratives, hlt], by simp [buildNarratives, hlt],
      fun hge _ => absurd hge (by omega)⟩
  · simp only [buildNarratives, if_neg hlt]
    have h := assembleNarr_props
      (localCandidates allDays franchise period todayDayPts todayGP projection avg3d ppg ++
        (if archive.ok then
          histColor allDays franchise period projection todayScrapeTeams archive
        else []))
      (fallbackLenses allDays franchise period todayDayPts todayGP ppg todayScrapeTeams)
      projection ppg
    exact ⟨fun hcon => absurd hcon hlt, h.1, fun _ => h.2⟩

theorem span_p1 : periodSpanDays ⟨1, "2025-10-07", "2025-10-19"⟩ = 13 := by decide

theorem span_p2 : periodSpanDays ⟨2, "2025-10-20", "2025-11-02"⟩ = 14 := by decide

/-- Claim C1 counterexample: with 2 days of loaded history in which BEW
never appears, no projection, and season PPG 0, `buildNarratives` returns
the empty list (the last-resort line treats `ppg = 0` as falsy), so the
output is empty despite at least 2 days of history. -/
theorem buildNarratives_cex :
    2 ≤ storeTwoDays.length ∧
    projectPeriodFinish storeTwoDays "BEW" 2 = none ∧
    seasonPPG storeTwoDays "BEW" = 0 ∧
    buildNarratives storeTwoDays "BEW" 2 0 0 (projectPeriodFinish storeTwoDays "BEW" 2)
      (rollingAvgPPG storeTwoDays "BEW" 3) (seasonPPG storeTwoDays "BEW")
      scrapeTwoTeams archiveNoData = [] := by
  have hproj : projectPeriodFinish storeTwoDays "BEW" 2 = none := by
    norm_num +decide [projectPeriodFinish, periodDaysOf, storeTwoDays, dayOct18, dayOct19]
  have havg : rollingAvgPPG storeTwoDays "BEW" 3 = none := by
    norm_num +decide [rollingAvgPPG, storeTwoDays, dayOct18, dayOct19, dayHas, jsSliceLast]
  have hppg : seasonPPG storeTwoDays "BEW" = 0 := by
    norm_num +decide [seasonPPG, storeTwoDays, dayOct18, dayOct19, findTeam,
      List.filterMap_cons]
  refine ⟨by norm_num [storeTwoDays], hproj, hppg, ?_⟩
  rw [hproj, havg, hppg]
  norm_num +decide [buildNarratives, localCandidates, histColor, selectTop, sortCandidates,
    sortBy, insertLe, fillFallbacks, fallbackLenses, lastResort, storeTwoDays, dayOct18,
    dayOct19, scrapeTwoTeams, archiveNoData, periodDaysOf, rankedDayFor, streakFromEnd,
    jsSliceLast, teamTotals, addTo, rankInDays, computePeriodStandings,
    computePeriodRankAtDay, computeAllPeriodTotals, careerMilestone, milestoneScan,
    projConfidence, resolveScrapeF, findTeam, PERIODS, span_p1, span_p2, jsRound,
    reduceMinFpts, List.filterMap_cons]

/-- Witness for the amended C1 theorem at a concrete input: with 2 days of
history and a projection present, the output is nonempty. -/
theorem buildNarratives_amended_witness :
    buildNarratives storeTwoDays "BEW" 2 0 0 (some ⟨1, 1, 1, 12, 13⟩) none 0
      scrapeTwoTeams archiveNoData ≠ [] :=
  (buildNarratives_amended storeTwoDays "BEW" 2 0 0 (some ⟨1, 1, 1, 12, 13⟩) none 0
      scrapeTwoTeams archiveNoData).2.2 (by norm_num [storeTwoDays])
    (Or.inl (by simp))

/-- Claim C3 counterexample: with career total 995 and 7 period points the
approximate total 1002 has already crossed 1000, so the detector emits the
just-crossed candidate at score 90 — not "5 pts from 1,000" at score 85 as
the spec example says. -/
theorem careerMilestone_cex :
    careerMilestone 995 7 =
      [{ score := 90, text := "🏅 Just crossed 1,000 career points!" }] ∧
    ∀ c ∈ careerMilestone 995 7, c.score ≠ 85 := by
  have h : careerMilestone 995 7 =
      [{ score := 90, text := "🏅 Just crossed 1,000 career points!" }] := by
    norm_num [careerMilestone, milestoneScan, milestones]
    decide
  refine ⟨h, ?_⟩
  rw [h]
  intro c hc
  simp at hc
  rw [hc]
  decide

/-- Claim C3 (amended): the milestone scan reports the first (hence
nearest) milestone falling in a band — within 20 points → score 85, within
50 → 70, within 100 → 55, just crossed (by less than 5) → 90 — with every
earlier milestone either long crossed or more than 100 points away; at
most one milestone candidate is ever emitted; and for career total 995
with 7 period points it reports "Just crossed 1,000" at score 90. -/
theorem careerMilestone_bands :
    (∀ (approx : ℚ) (ms : List ℤ) (c : Candidate),
      milestoneScan approx ms = some c →
      ∃ (pre : List ℤ) (m : ℤ) (post : List ℤ), ms = pre ++ m :: post ∧
        (∀ m' ∈ pre, (m' : ℚ) - approx ≤ -5 ∨ 100 < (m' : ℚ) - approx) ∧
        ((0 < (m : ℚ) - approx ∧ (m : ℚ) - approx ≤ 20 ∧ c.score = 85) ∨
         (20 < (m : ℚ) - approx ∧ (m : ℚ) - approx ≤ 50 ∧ c.score = 70) ∨
         (50 < (m : ℚ) - approx ∧ (m : ℚ) - approx ≤ 100 ∧ c.score = 55) ∨
         (-5 < (m : ℚ) - approx ∧ (m : ℚ) - approx ≤ 0 ∧ c.score = 90))) ∧
    (∀ (careerTotal : ℤ) (periodPts : ℚ), (careerMilestone careerTotal periodPts).length ≤ 1) ∧
    careerMilestone 995 7 = [{ score := 90, text := "🏅 Just crossed 1,000 career points!" }] := by
  refine ⟨?_, ?_, by norm_num [careerMilestone, milestoneScan, milestones]; decide⟩
  · intro approx ms
    induction ms with
    | nil => intro c h; cases h
    | cons m rest ih =>
      intro c h
      simp only [milestoneScan] at h
      split_ifs at h with h1 h2 h3 h4
      · refine ⟨[], m, rest, by simp, by simp, Or.inl ⟨h1.1, h1.2, ?_⟩⟩
        rw [← Option.some.inj h]
      · refine ⟨[], m, rest, by simp, by simp, Or.inr (Or.inl ⟨?_, h2.2, ?_⟩)⟩
        · rcases lt_or_le 20 ((m : ℚ) - approx) with hg | hl
          · exact hg
          · exact absurd ⟨h2.1, hl⟩ h1
        · rw [← Option.some.inj h]
      · refine ⟨[], m, rest, by simp, by simp, Or.inr (Or.inr (Or.inl ⟨?_, h3.2, ?_⟩))⟩
        · rcases lt_or_le 50 ((m : ℚ) - approx) with hg | hl
          · exact hg
          · exact absurd ⟨h3.1, hl⟩ h2
        · rw [← Option.some.inj h]
      · refine ⟨[], m, rest, by simp, by simp, Or.inr (Or.inr (Or.inr ⟨h4.2, h4.1, ?_⟩))⟩
        rw [← Option.some.inj h]
      · rcases ih c h with ⟨pre, m', post, heq, hpre, hband⟩
        refine ⟨m :: pre, m', post, by rw [heq]; rfl, ?_, hband⟩
        intro m'' hm''
        rcases List.mem_cons.mp hm'' with hm'' | hm''
        · subst hm''
          rcases lt_or_le 0 ((m'' : ℚ) - approx) with hpos | hsign
          · right
            by_contra hle
            push_neg at hle
            exact h3 ⟨hpos, hle⟩
          · left
            by_contra hgt
            push_neg at hgt
            exact h4 ⟨hsign, hgt⟩
        · exact hpre m'' hm''
  · intro careerTotal periodPts
    unfold careerMilestone
    split_ifs
    · cases milestoneScan ((careerTotal : ℚ) + periodPts) milestones with
      | none => simp
      | some c => simp
    · simp

/-- Witness for the amended C3 theorem: applying the band characterization
at the concrete 995-plus-7 input produces the just-crossed band for the
1000 milestone. -/
theorem careerMilestone_bands_witness :
    ∃ (pre : List ℤ) (m : ℤ) (post : List ℤ), milestones = pre ++ m :: post ∧
      (∀ m' ∈ pre, (m' : ℚ) - 1002 ≤ -5 ∨ 100 < (m' : ℚ) - 1002) ∧
      ((0 < (m : ℚ) - 1002 ∧ (m : ℚ) - 1002 ≤ 20 ∧
        (Candidate.mk 90 ("🏅 Just crossed 1,000 career points!") false none).score = 85) ∨
       (20 < (m : ℚ) - 1002 ∧ (m : ℚ) - 1002 ≤ 50 ∧
        (Candidate.mk 90 ("🏅 Just crossed 1,000 career points!") false none).score = 70) ∨
       (50 < (m : ℚ) - 1002 ∧ (m : ℚ) - 1002 ≤ 100 ∧
        (Candidate.mk 90 ("🏅 Just crossed 1,000 career points!") false none).score = 55) ∨
       (-5 < (m : ℚ) - 1002 ∧ (m : ℚ) - 1002 ≤ 0 ∧
        (Candidate.mk 90 ("🏅 Just crossed 1,000 career points!") false none).score = 90)) :=
  careerMilestone_bands.1 1002 milestones
    (Candidate.mk 90 ("🏅 Just crossed 1,000 career points!") false none)
    (by norm_num [milestoneScan, milestones]; decide)

/-- Claim C4 counterexample: the projection-confidence multiplier at 2
days played of a 14-day period is 3/7 (≈ 0.43), not 0.3; and at 10 days
played of 14 it is 33/35, not 1.0. -/
theorem projConfidence_cex :
    projConfidence (some ⟨0, 0, 2, 12, 14⟩) = 3/7 ∧ (3/7 : ℚ) ≠ 3/10 ∧
    projConfidence (some ⟨0, 0, 10, 4, 14⟩) = 33/35 ∧ (33/35 : ℚ) ≠ 1 := by
  refine ⟨?_, by norm_num, ?_, by norm_num⟩
  · norm_num [projConfidence]
  · norm_num [projConfidence]

/-- Claim C4 (amended): the multiplier is
`min(1, 0.3 + 0.9 * daysPlayed / totalDays)`; it equals 1 exactly when
`9 * daysPlayed ≥ 7 * totalDays` (day 11, not day 10, of a 14-day
period); it is 3/7 at day 2 of 14; and it is 0 with no projection. -/
theorem projConfidence_amended :
    (∀ p : Projection, 0 < p.totalDays →
      (projConfidence (some p) = 1 ↔ 7 * p.totalDays ≤ 9 * (p.daysPlayed : ℤ))) ∧
    projConfidence (some ⟨0, 0, 2, 12, 14⟩) = 3/7 ∧
    projConfidence (some ⟨0, 0, 11, 3, 14⟩) = 1 ∧
    projConfidence none = 0 := by
  refine ⟨?_, by norm_num [projConfidence], by norm_num [projConfidence],
    by norm_num [projConfidence]⟩
  intro p hpos
  have htd : (0 : ℚ) < (p.totalDays : ℚ) := by exact_mod_cast hpos
  unfold projConfidence
  rw [min_eq_left_iff]
  rw [show (3 : ℚ)/10 + ((p.daysPlayed : ℚ) / (p.totalDays : ℚ)) * (9/10) =
    (3 * (p.totalDays : ℚ) + 9 * (p.daysPlayed : ℚ)) / (10 * (p.totalDays : ℚ)) from by
      field_simp; ring]
  rw [le_div_iff₀ (by positivity)]
  constructor
  · intro h
    have : 7 * (p.totalDays : ℚ) ≤ 9 * (p.daysPlayed : ℚ) := by linarith
    exact_mod_cast this
  · intro h
    have : 7 * (p.totalDays : ℚ) ≤ 9 * (p.daysPlayed : ℚ) := by exact_mod_cast h
    linarith

/-- Witness for the amended C4 theorem: at 11 of 14 days played the iff
applies and certifies the multiplier is exactly 1. -/
theorem projConfidence_amended_witness :
    projConfidence (some ⟨0, 0, 11, 3, 14⟩) = 1 :=
  (projConfidence_amended.1 ⟨0, 0, 11, 3, 14⟩ (by norm_num)).mpr (by norm_num)

/-- Claim C5 counterexample: franchise B has no records in the loaded
period-1 days, yet the projection is non-null (nullness depends only on
the period's days and configuration, not the franchise); and for
franchise A the rounded projection 0 falls below the stored periodPts 0.4
even though the daily average is nonnegative. -/
theorem projectPeriodFinish_cex :
    storeTwelveDays.all (fun d => (findTeam "B" d).isNone) = true ∧
    projectPeriodFinish storeTwelveDays "B" 1 = some ⟨0, 0, 12, 1, 13⟩ ∧
    projectPeriodFinish storeTwelveDays "A" 1 = some ⟨2/5, 0, 12, 1, 13⟩ ∧
    0 ≤ periodPtsRaw storeTwelveDays "A" 1 / 12 ∧
    ((0 : ℤ) : ℚ) < 2/5 := by
  refine ⟨by decide, ?_, ?_, ?_, by norm_num⟩
  · norm_num +decide [projectPeriodFinish, periodDaysOf, periodPtsRaw, storeTwelveDays,
      List.replicate, findTeam, PERIODS, span_p1, round1, jsRound, List.filterMap_cons,
      Function.comp]
  · norm_num +decide [projectPeriodFinish, periodDaysOf, periodPtsRaw, storeTwelveDays,
      List.replicate, findTeam, PERIODS, span_p1, round1, jsRound, List.filterMap_cons,
      Function.comp]
  · norm_num +decide [periodPtsRaw, periodDaysOf, storeTwelveDays, List.replicate,
      findTeam, List.filterMap_cons]

/-- Claim C5 (amended): `projectPeriodFinish` is `null` exactly when the
period has no loaded days or no period definition exists — regardless of
whether the franchise has records in the period; and in every non-null
result, whenever the accumulated period points are nonnegative (so the
daily average is nonnegative) and `daysRemaining` is nonnegative, the
rounded projection exceeds the (1-decimal-rounded) `periodPts` minus 1. -/
theorem projectPeriodFinish_amended : ∀ (allDays : List Day) (franchise : String) (period : ℕ),
    (projectPeriodFinish allDays franchise period = none ↔
      (periodDaysOf allDays period = [] ∨
       PERIODS.find? (fun p => p.period == period) = none)) ∧
    (0 ≤ periodPtsRaw allDays franchise period →
      ∀ r : Projection, projectPeriodFinish allDays franchise period = some r →
        0 ≤ r.daysRemaining → r.periodPts - 1 < (r.projected : ℚ)) := by
  intro allDays franchise period
  constructor
  · by_cases hpd : (periodDaysOf allDays period).length = 0
    · rw [show projectPeriodFinish allDays franchise period = none from by
        simp [projectPeriodFinish, hpd]]
      simp [List.length_eq_zero.mp hpd]
    · cases hfind : PERIODS.find? (fun p => p.period == period) with
      | none =>
        rw [show projectPeriodFinish allDays franchise period = none from by
          simp [projectPeriodFinish, hpd, hfind]]
        simp [hfind]
      | some cfg =>
        have hne : projectPeriodFinish allDays franchise period ≠ none := by
          simp [projectPeriodFinish, hpd, hfind]
        simp only [hne, false_iff]
        push_neg
        refine ⟨fun h => hpd (by rw [h]; rfl), by simp [hfind]⟩
  · intro hraw r heq hrem
    by_cases hpd : (periodDaysOf allDays period).length = 0
    · simp [projectPeriodFinish, hpd] at heq
    · cases hfind : PERIODS.find? (fun p => p.period == period) with
      | none => simp [projectPeriodFinish, hpd, hfind] at heq
      | some cfg =>
        simp only [projectPeriodFinish, if_neg hpd, hfind] at heq
        cases Option.some.inj heq
        simp only [jsRound, round1] at hrem ⊢
        have hdp : (0 : ℚ) < ((periodDaysOf allDays period).length : ℚ) := by
          exact_mod_cast Nat.pos_of_ne_zero hpd
        have hrem' : (0 : ℚ) ≤
            ((periodSpanDays cfg - (periodDaysOf allDays period).length : ℤ) : ℚ) := by
          exact_mod_cast hrem
        have hterm : 0 ≤ periodPtsRaw allDays franchise period /
            ((periodDaysOf allDays period).length : ℚ) *
            ((periodSpanDays cfg - (periodDaysOf allDays period).length : ℤ) : ℚ) :=
          mul_nonneg (div_nonneg hraw hdp.le) hrem'
        linarith [Int.floor_le (periodPtsRaw allDays franchise period * 10 + 1/2),
          Int.sub_one_lt_floor (periodPtsRaw allDays franchise period +
            periodPtsRaw allDays franchise period /
              ((periodDaysOf allDays period).length : ℚ) *
              ((periodSpanDays cfg - (periodDaysOf allDays period).length : ℤ) : ℚ) + 1/2),
          hterm]

/-- Witness for the amended C5 theorem at the twelve-day store. -/
theorem projectPeriodFinish_amended_witness :
    (2/5 : ℚ) - 1 < ((0 : ℤ) : ℚ) :=
  (projectPeriodFinish_amended storeTwelveDays "A" 1).2
    (by norm_num +decide [periodPtsRaw, periodDaysOf, storeTwelveDays, List.replicate,
      findTeam, List.filterMap_cons])
    ⟨2/5, 0, 12, 1, 13⟩
    (by norm_num +decide [projectPeriodFinish, periodDaysOf, periodPtsRaw, storeTwelveDays,
      List.replicate, findTeam, PERIODS, span_p1, round1, jsRound, List.filterMap_cons,
      Function.comp])
    (by norm_num)

theorem filterMap_map_sum_eq {M : Type} [AddCommMonoid M] (f : Day → Option Team)
    (g : Team → M) : ∀ l : List Day,
    ((l.filterMap f).map g).sum = (l.map (fun d => ((f d).map g).getD 0)).sum := by
  intro l
  induction l with
  | nil => rfl
  | cons d t ih =>
    cases hf : f d with
    | none => simp [List.filterMap_cons, hf, ih]
    | some team => simp [List.filterMap_cons, hf, ih]

/-- Claim C6 counterexample: at `n = 0` the JS `slice(-0)` quirk makes the
implementation average over the entire history (here 2.5 PPG), while the
claimed "last n records" reading yields an empty window and `null`. -/
theorem rollingAvgPPG_cex :
    rollingAvgPPG storeTwoDays "JGC" 0 = some (5/2) ∧
    rollingAvgPPGSpec storeTwoDays "JGC" 0 = none := by
  constructor
  · norm_num +decide [rollingAvgPPG, storeTwoDays, dayOct18, dayOct19, dayHas, jsSliceLast,
      findTeam, round2, jsRound, Function.comp, List.filterMap_cons]
  · norm_num +decide [rollingAvgPPGSpec, storeTwoDays, dayOct18, dayOct19, dayHas, takeLast]

/-- Claim C6 (amended): for every window size `n ≥ 1`, `rollingAvgPPG`
computes exactly the specification's description — last `n` qualifying
records, points per game with a per-record fallback, rounded to 2
decimals — and returns `null` exactly when the franchise has no
qualifying record at all.  (At `n = 0` the implementation instead
averages the whole history; see the counterexample.) -/
theorem rollingAvgPPG_amended : ∀ (allDays : List Day) (franchise : String) (n : ℕ),
    1 ≤ n →
    rollingAvgPPG allDays franchise n = rollingAvgPPGSpec allDays franchise n ∧
    (rollingAvgPPG allDays franchise n = none ↔ allDays.filter (dayHas franchise) = []) := by
  intro allDays franchise n hn
  have hslice : jsSliceLast n (allDays.filter (dayHas franchise)) =
      takeLast n (allDays.filter (dayHas franchise)) := by
    unfold jsSliceLast takeLast
    rw [if_neg (by omega)]
  constructor
  · simp only [rollingAvgPPG, rollingAvgPPGSpec]
    rw [hslice]
    rw [filterMap_map_sum_eq (findTeam franchise) (fun t => t.dayPts),
        filterMap_map_sum_eq (findTeam franchise) (fun t => t.gp)]
    rcases Decidable.eq_or_ne (takeLast n (allDays.filter (dayHas franchise))) [] with h | h
    · simp [h]
    · rw [if_neg (by simpa [List.length_eq_zero] using h), if_neg h]
  · simp only [rollingAvgPPG]
    rw [hslice]
    rcases Decidable.eq_or_ne (allDays.filter (dayHas franchise)) [] with h | h
    · simp [h, takeLast]
    · have hlen : 0 < (allDays.filter (dayHas franchise)).length :=
        List.length_pos.mpr h
      have htl : (takeLast n (allDays.filter (dayHas franchise))).length ≠ 0 := by
        unfold takeLast
        rw [List.length_drop]
        omega
      rw [if_neg htl]
      split <;> simp [h]

/-- Witness for the amended C6 theorem at window size 3. -/
theorem rollingAvgPPG_amended_witness :
    rollingAvgPPG storeTwoDays "JGC" 3 = rollingAvgPPGSpec storeTwoDays "JGC" 3 ∧
    (rollingAvgPPG storeTwoDays "JGC" 3 = none ↔
      storeTwoDays.filter (dayHas "JGC") = []) :=
  rollingAvgPPG_amended storeTwoDays "JGC" 3 (by norm_num)

/-- Claim C9: `toFranchise` resolves every known franchise name from the
map; an exact normalized hit wins first; and the result is `null` exactly
when the name is falsy or no exact, substring (either direction) or
keyword rule matches — unknown names fail closed. -/
theorem toFranchise_resolution :
    (∀ p ∈ FRANCHISE_MAP, toFranchise p.1 = some p.2) ∧
    (∀ (name : String) (a : String), name ≠ "" →
      jsLookup FRANCHISE_MAP (jsNormalize name) = some a → toFranchise name = some a) ∧
    (∀ name : String, toFranchise name = none ↔
      (name = "" ∨
       (jsLookup FRANCHISE_MAP (jsNormalize name) = none ∧
        (∀ p ∈ FRANCHISE_MAP, jsIncludes (jsNormalize name) p.1 = false ∧
          jsIncludes p.1 (jsNormalize name) = false) ∧
        (∀ p ∈ KEYWORDS, jsIncludes (jsNormalize name) p.1 = false)))) := by
  refine ⟨by decide, ?_, ?_⟩
  · intro name a hne hlk
    simp [toFranchise, hne, hlk]
  · intro name
    by_cases hne : name = ""
    · simp [toFranchise, hne]
    · simp only [toFranchise, if_neg hne]
      cases h1 : jsLookup FRANCHISE_MAP (jsNormalize name) with
      | some a => simp [hne, h1]
      | none =>
        cases h2 : FRANCHISE_MAP.find?
            (fun p => jsIncludes (jsNormalize name) p.1 || jsIncludes p.1 (jsNormalize name)) with
        | some p =>
          have hmem := List.mem_of_find?_eq_some h2
          have hpred := List.find?_some h2
          simp only [Option.some_ne_none, false_iff]
          push_neg
          refine ⟨hne, fun _ hall => absurd hpred ?_⟩
          simp [(hall p hmem).1, (hall p hmem).2]
        | none =>
          cases h3 : KEYWORDS.find? (fun p => jsIncludes (jsNormalize name) p.1) with
          | some p =>
            have hmem := List.mem_of_find?_eq_some h3
            have hpred := List.find?_some h3
            simp only [Option.map_some', Option.some_ne_none, false_iff]
            push_neg
            refine ⟨hne, fun _ _ => ⟨p, hmem, ?_⟩⟩
            simp [hpred]
          | none =>
            simp only [Option.map_none', true_iff]
            refine Or.inr ⟨trivial, ?_, ?_⟩
            · intro p hp
              have := List.find?_eq_none.mp h2 p hp
              simpa [Bool.or_eq_true_iff] using this
            · intro p hp
              have := List.find?_eq_none.mp h3 p hp
              simpa using this

/-- Witness for C9 at a concrete known name. -/
theorem toFranchise_resolution_witness : toFranchise "pwn" = some "PWN" :=
  toFranchise_resolution.1 ("pwn", "PWN") (by decide)

/-- Claim C10: for a franchise with zero qualifying records, `seasonPPG`
returns the number 0 while `rollingAvgPPG` returns `null` for every
window size — so a caller of `seasonPPG` cannot tell an absent franchise
from a present one with zero average. -/
theorem seasonPPG_vs_rolling_absent : ∀ (allDays : List Day) (franchise : String),
    (∀ d ∈ allDays, findTeam franchise d = none) →
    seasonPPG allDays franchise = 0 ∧
    ∀ n, rollingAvgPPG allDays franchise n = none := by
  intro allDays franchise h
  have hfm : allDays.filterMap (findTeam franchise) = [] := by
    rw [List.filterMap_eq_nil_iff]
    exact h
  have hfilter : allDays.filter (dayHas franchise) = [] := by
    rw [List.filter_eq_nil_iff]
    intro d hd
    have hfind := h d hd
    unfold findTeam at hfind
    unfold dayHas
    simp only [List.any_eq_true, not_exists, not_and]
    intro t ht
    have := List.find?_eq_none.mp hfind t ht
    simpa using this
  constructor
  · simp [seasonPPG, hfm]
  · intro n
    have hsl : jsSliceLast n (allDays.filter (dayHas franchise)) = [] := by
      unfold jsSliceLast
      rw [hfilter]
      split <;> simp
    simp [rollingAvgPPG, hsl]

/-- Witness for C10 at the two-day store where BEW never appears. -/
theorem seasonPPG_vs_rolling_absent_witness :
    seasonPPG storeTwoDays "BEW" = 0 ∧ rollingAvgPPG storeTwoDays "BEW" 7 = none :=
  ⟨(seasonPPG_vs_rolling_absent storeTwoDays "BEW" (by decide)).1,
   (seasonPPG_vs_rolling_absent storeTwoDays "BEW" (by decide)).2 7⟩

theorem enumFrom_assign_seasonRank : ∀ (l : List TeamStat) (n : ℕ),
    ((List.enumFrom n l).map (fun p => { p.2 with seasonRank := p.1 + 1 })).map
      (·.seasonRank) = List.range' (n + 1) l.length := by
  intro l
  induction l with
  | nil => intro n; rfl
  | cons x xs ih =>
    intro n
    simp only [List.enumFrom, List.map_cons, List.length_cons, List.range']
    exact congrArg (List.cons (n + 1)) (ih (n + 1))

theorem enumFrom_assign_dayRank : ∀ (l : List TeamStat) (n : ℕ),
    ((List.enumFrom n l).map (fun p => { p.2 with dayRank := p.1 + 1 })).map
      (·.dayRank) = List.range' (n + 1) l.length := by
  intro l
  induction l with
  | nil => intro n; rfl
  | cons x xs ih =>
    intro n
    simp only [List.enumFrom, List.map_cons, List.length_cons, List.range']
    exact congrArg (List.cons (n + 1)) (ih (n + 1))

theorem enumFrom_seasonRank_keeps_dayRank : ∀ (l : List TeamStat) (n : ℕ),
    ((List.enumFrom n l).map (fun p => { p.2 with seasonRank := p.1 + 1 })).map
      (·.dayRank) = l.map (·.dayRank) := by
  intro l
  induction l with
  | nil => intro n; rfl
  | cons x xs ih =>
    intro n
    simp only [List.enumFrom, List.map_cons]
    exact congrArg (List.cons x.dayRank) (ih (n + 1))

theorem rank_pipeline (teamStats : List TeamStat) (totals : List (String × ℚ)) (N : ℕ)
    (hN : teamStats.length = N) :
    let ranked := sortBy (fun a b => decide (b.dayPts ≤ a.dayPts)) teamStats
    let withDay := ranked.enum.map (fun p => { p.2 with dayRank := p.1 + 1 })
    let withSeason := withDay.map (fun t =>
      { t with seasonPts := round1 (lookupTotal totals t.franchise) })
    let seasonSorted := sortBy (fun a b => decide (b.seasonPts ≤ a.seasonPts)) withSeason
    let seasonRankedF := seasonSorted.enum.map (fun p => { p.2 with seasonRank := p.1 + 1 })
    let teamsOut := sortBy (fun a b => decide (a.dayRank ≤ b.dayRank)) seasonRankedF
    (teamsOut.map (·.dayRank)).Perm (List.range' 1 N) ∧
    (teamsOut.map (·.seasonRank)).Perm (List.range' 1 N) ∧
    (seasonRankedF.map (·.dayRank)).Perm (List.range' 1 N) ∧
    (seasonRankedF.map (·.seasonRank)).Perm (List.range' 1 N) := by
  intro ranked withDay withSeason seasonSorted seasonRankedF teamsOut
  have hlen1 : ranked.length = N := by rw [sortBy_length, hN]
  have hWDday : withDay.map (·.dayRank) = List.range' 1 ranked.length :=
    enumFrom_assign_dayRank ranked 0
  have hWSday : withSeason.map (·.dayRank) = withDay.map (·.dayRank) := by
    show (withDay.map _).map _ = _
    rw [List.map_map]
    rfl
  have hSRday : seasonRankedF.map (·.dayRank) = seasonSorted.map (·.dayRank) :=
    enumFrom_seasonRank_keeps_dayRank seasonSorted 0
  have hSRsr : seasonRankedF.map (·.seasonRank) = List.range' 1 seasonSorted.length :=
    enumFrom_assign_seasonRank seasonSorted 0
  have hlen2 : seasonSorted.length = N := by
    show (sortBy _ _).length = N
    rw [sortBy_length, List.length_map, List.length_map, List.enum_length, hlen1]
  have pOut : teamsOut.Perm seasonRankedF := sortBy_perm _ _
  have pSS : seasonSorted.Perm withSeason := sortBy_perm _ _
  have hSeasonDR : (seasonRankedF.map (·.dayRank)).Perm (List.range' 1 N) := by
    rw [hSRday]
    have h := pSS.map (·.dayRank)
    rw [hWSday, hWDday, hlen1] at h
    exact h
  have hSeasonSR : (seasonRankedF.map (·.seasonRank)).Perm (List.range' 1 N) := by
    rw [hSRsr, hlen2]
  refine ⟨(pOut.map (·.dayRank)).trans hSeasonDR, (pOut.map (·.seasonRank)).trans hSeasonSR,
    hSeasonDR, hSeasonSR⟩

/-- Claim C8: in every run of `buildNightlyAnalysis` over N scraped teams,
the `dayRank` values and the `seasonRank` values carried by the output
lists each form a permutation of 1..N — no gaps, no duplicates. -/
theorem nightly_rank_permutation : ∀ (allDays : List Day) (scrape : Scrape)
    (nowDate nowIso : String),
    (((buildNightlyAnalysis allDays scrape nowDate nowIso).teams.map (·.dayRank)).Perm
      (List.range' 1 scrape.teams.length)) ∧
    (((buildNightlyAnalysis allDays scrape nowDate nowIso).teams.map (·.seasonRank)).Perm
      (List.range' 1 scrape.teams.length)) ∧
    (((buildNightlyAnalysis allDays scrape nowDate nowIso).seasonRanked.map
        (·.dayRank)).Perm (List.range' 1 scrape.teams.length)) ∧
    (((buildNightlyAnalysis allDays scrape nowDate nowIso).seasonRanked.map
        (·.seasonRank)).Perm (List.range' 1 scrape.teams.length)) := by
  intro allDays scrape nowDate nowIso
  simp only [buildNightlyAnalysis]
  exact rank_pipeline _ _ scrape.teams.length (List.length_map _ _)

theorem any_map_update (acc : List (String × ℚ)) (f0 g : String) (v : ℚ) :
    (acc.map (fun p => if p.1 == f0 then (p.1, p.2 + v) else p)).any (fun p => p.1 == g) =
      acc.any (fun p => p.1 == g) := by
  induction acc with
  | nil => rfl
  | cons p t ih =>
    simp only [List.map_cons, List.any_cons, ih]
    congr 1
    split <;> rfl

theorem find_map_update (acc : List (String × ℚ)) (f0 g : String) (v : ℚ) :
    (acc.map (fun p => if p.1 == f0 then (p.1, p.2 + v) else p)).find? (fun p => p.1 == g) =
      (acc.find? (fun p => p.1 == g)).map (fun p => if p.1 == f0 then (p.1, p.2 + v) else p) := by
  induction acc with
  | nil => rfl
  | cons p t ih =>
    rw [List.map_cons]
    have h1 : ((if (p.1 == f0) = true then (p.1, p.2 + v) else p).1) = p.1 := by
      split <;> rfl
    simp only [List.find?_cons, h1]
    cases hpg : (p.1 == g) with
    | true => rfl
    | false => exact ih

theorem addKnown_any (acc : List (String × ℚ)) (k : Option String) (v : ℚ) (g : String) :
    (addKnown acc k v).any (fun p => p.1 == g) = acc.any (fun p => p.1 == g) := by
  cases k with
  | none => rfl
  | some f0 =>
    simp only [addKnown]
    split
    · exact any_map_update acc f0 g v
    · rfl

theorem lookupTotal_addKnown (acc : List (String × ℚ)) (k : Option String) (v : ℚ)
    (g : String) :
    lookupTotal (addKnown acc k v) g =
      lookupTotal acc g +
        (if k = some g ∧ acc.any (fun p => p.1 == g) = true then v else 0) := by
  cases k with
  | none => simp [addKnown, lookupTotal]
  | some f0 =>
    simp only [addKnown]
    by_cases hpres : acc.any (fun p => p.1 == f0) = true
    · rw [if_pos hpres]
      unfold lookupTotal
      rw [find_map_update]
      cases hfind : acc.find? (fun p => p.1 == g) with
      | none =>
        have hno : ¬(some f0 = some g ∧ acc.any (fun p => p.1 == g) = true) := by
          rintro ⟨_, ha⟩
          rcases List.any_eq_true.mp ha with ⟨p, hp, hpg⟩
          exact absurd (List.find?_eq_none.mp hfind p hp) (by simp [hpg])
        rw [if_neg hno]
        simp
      | some p =>
        have hp := List.find?_some hfind
        simp only [Option.map_some', Option.getD_some]
        by_cases hfg : (p.1 == f0) = true
        · rw [if_pos hfg]
          have hgf0 : some f0 = some g := by
            have e1 : p.1 = g := by simpa using hp
            have e2 : p.1 = f0 := by simpa using hfg
            rw [← e1, ← e2]
          have hpg : acc.any (fun q => q.1 == g) = true :=
            List.any_eq_true.mpr ⟨p, List.mem_of_find?_eq_some hfind, hp⟩
          rw [if_pos ⟨hgf0, hpg⟩]
        · rw [if_neg hfg]
          have hno : ¬(some f0 = some g ∧ acc.any (fun q => q.1 == g) = true) := by
            rintro ⟨he, _⟩
            have e1 : p.1 = g := by simpa using hp
            have e2 : f0 = g := Option.some.inj he
            exact absurd (by rw [e1, e2] : p.1 = f0) (by simpa using hfg)
          rw [if_neg hno]
          simp
    · rw [if_neg hpres]
      have hno : ¬(some f0 = some g ∧ acc.any (fun p => p.1 == g) = true) := by
        rintro ⟨he, ha⟩
        exact hpres ((Option.some.inj he) ▸ ha)
      rw [if_neg hno]
      simp

theorem addTeams_any (ts : List Team) : ∀ (acc : List (String × ℚ)) (g : String),
    (addTeamsKnown acc ts).any (fun p => p.1 == g) = acc.any (fun p => p.1 == g) := by
  induction ts with
  | nil => intro acc g; rfl
  | cons t ts ih =>
    intro acc g
    show (addTeamsKnown (addKnown acc (histKey t) t.dayPts) ts).any _ = _
    rw [ih, addKnown_any]

theorem keyedSum_cons (t : Team) (ts : List Team) (g : String) :
    keyedSum (t :: ts) g =
      (if (histKey t == some g) = true then t.dayPts else 0) + keyedSum ts g := by
  unfold keyedSum
  rw [List.filter_cons]
  split
  · simp
  · simp

theorem lookupTotal_addTeams (ts : List Team) : ∀ (acc : List (String × ℚ)) (g : String),
    lookupTotal (addTeamsKnown acc ts) g =
      lookupTotal acc g +
        (if acc.any (fun p => p.1 == g) = true then keyedSum ts g else 0) := by
  induction ts with
  | nil =>
    intro acc g
    simp [addTeamsKnown, keyedSum]
  | cons t ts ih =>
    intro acc g
    show lookupTotal (addTeamsKnown (addKnown acc (histKey t) t.dayPts) ts) g = _
    rw [ih, addKnown_any, lookupTotal_addKnown, keyedSum_cons]
    by_cases hpres : acc.any (fun p => p.1 == g) = true
    · rw [if_pos hpres, if_pos hpres]
      by_cases hk : histKey t = some g
      · rw [if_pos ⟨hk, hpres⟩, if_pos (show (histKey t == some g) = true by simpa using hk)]
        ring
      · rw [if_neg (fun h => hk h.1),
          if_neg (show ¬(histKey t == some g) = true by simpa using hk)]
        ring
    · rw [if_neg hpres, if_neg hpres, if_neg (fun h => hpres h.2)]
      ring

theorem addDays_any (days : List Day) : ∀ (acc : List (String × ℚ)) (g : String),
    (days.foldl (fun acc day => addTeamsKnown acc day.teams) acc).any (fun p => p.1 == g) =
      acc.any (fun p => p.1 == g) := by
  induction days with
  | nil => intro acc g; rfl
  | cons d ds ih =>
    intro acc g
    show (ds.foldl _ (addTeamsKnown acc d.teams)).any _ = _
    rw [ih, addTeams_any]

theorem lookupTotal_addDays (days : List Day) : ∀ (acc : List (String × ℚ)) (g : String),
    lookupTotal (days.foldl (fun acc day => addTeamsKnown acc day.teams) acc) g =
      lookupTotal acc g +
        (if acc.any (fun p => p.1 == g) = true
         then (days.map (fun d => keyedSum d.teams g)).sum else 0) := by
  induction days with
  | nil => intro acc g; simp
  | cons d ds ih =>
    intro acc g
    show lookupTotal (ds.foldl _ (addTeamsKnown acc d.teams)) g = _
    rw [ih, addTeams_any, lookupTotal_addTeams, List.map_cons, List.sum_cons]
    by_cases hpres : acc.any (fun p => p.1 == g) = true
    · rw [if_pos hpres, if_pos hpres, if_pos hpres]
      ring
    · rw [if_neg hpres, if_neg hpres, if_neg hpres]
      ring

theorem initTotals_any (stats : List TeamStat) (f : String) :
    (initTotals stats).any (fun p => p.1 == f) = stats.any (fun t => t.franchise == f) := by
  unfold initTotals
  suffices h : ∀ acc : List (String × ℚ),
      (stats.foldl (fun acc t =>
        if acc.any (fun p => p.1 == t.franchise) then acc
        else acc ++ [(t.franchise, (0 : ℚ))]) acc).any (fun p => p.1 == f) =
      (acc.any (fun p => p.1 == f) || stats.any (fun t => t.franchise == f)) by
    rw [h []]
    rfl
  induction stats with
  | nil => intro acc; simp
  | cons t ts ih =>
    intro acc
    show (ts.foldl _ (if acc.any (fun p => p.1 == t.franchise) then acc
      else acc ++ [(t.franchise, (0 : ℚ))])).any _ = _
    rw [ih]
    by_cases hpres : acc.any (fun p => p.1 == t.franchise) = true
    · rw [if_pos hpres]
      simp only [List.any_cons]
      cases htf : (t.franchise == f) with
      | false => simp
      | true =>
        have : acc.any (fun p => p.1 == f) = true := by
          have e : t.franchise = f := by simpa using htf
          rw [← e]
          exact hpres
        simp [this]
    · rw [if_neg hpres]
      simp only [List.any_append, List.any_cons, List.any_nil]
      cases htf : ((t.franchise : String) == f) with
      | false =>
        have : ((t.franchise, (0 : ℚ)).1 == f) = false := htf
        simp [this]
      | true =>
        have : ((t.franchise, (0 : ℚ)).1 == f) = true := htf
        simp [this]

theorem initTotals_values (stats : List TeamStat) :
    ∀ p ∈ initTotals stats, p.2 = 0 := by
  unfold initTotals
  suffices h : ∀ acc : List (String × ℚ), (∀ p ∈ acc, p.2 = 0) →
      ∀ p ∈ stats.foldl (fun acc t =>
        if acc.any (fun q => q.1 == t.franchise) then acc
        else acc ++ [(t.franchise, (0 : ℚ))]) acc, p.2 = 0 by
    exact h [] (by simp)
  induction stats with
  | nil => intro acc hacc; exact hacc
  | cons t ts ih =>
    intro acc hacc
    show ∀ p ∈ ts.foldl _ (if acc.any (fun q => q.1 == t.franchise) then acc
      else acc ++ [(t.franchise, (0 : ℚ))]), p.2 = 0
    refine ih _ ?_
    split
    · exact hacc
    · intro p hp
      rcases List.mem_append.mp hp with h | h
      · exact hacc p h
      · simp at h
        rw [h]

theorem lookupTotal_initTotals (stats : List TeamStat) (f : String) :
    lookupTotal (initTotals stats) f = 0 := by
  unfold lookupTotal
  cases hfind : (initTotals stats).find? (fun p => p.1 == f) with
  | none => rfl
  | some p =>
    have := initTotals_values stats p (List.mem_of_find?_eq_some hfind)
    simp [this]

theorem lookupTotal_seasonTotals (allDays : List Day) (stats : List TeamStat)
    (scrapeTeams : List Team) (today : String) (f : String)
    (hf : stats.any (fun t => t.franchise == f) = true) :
    lookupTotal (seasonTotalsMap allDays stats scrapeTeams today) f =
      (allDays.map (fun d => keyedSum d.teams f)).sum +
      (if allDays.any (fun d => d.date == today) = true then 0
       else keyedSum scrapeTeams f) := by
  unfold seasonTotalsMap
  have hany : (initTotals stats).any (fun p => p.1 == f) = true := by
    rw [initTotals_any]
    exact hf
  by_cases htoday : allDays.any (fun d => d.date == today) = true
  · rw [if_pos htoday, if_pos htoday, lookupTotal_addDays, lookupTotal_initTotals,
      if_pos hany]
    ring
  · rw [if_neg htoday, if_neg htoday, lookupTotal_addTeams, lookupTotal_addDays,
      lookupTotal_initTotals, if_pos hany, addDays_any, if_pos hany]
    ring

theorem snd_mem_enumFrom {α : Type} : ∀ (l : List α) (n : ℕ) (p : ℕ × α),
    p ∈ List.enumFrom n l → p.2 ∈ l := by
  intro l
  induction l with
  | nil => intro n p h; cases h
  | cons x xs ih =>
    intro n p h
    rcases List.mem_cons.mp h with h | h
    · rw [h]
      exact List.mem_cons_self _ _
    · exact List.mem_cons_of_mem _ (ih (n + 1) p h)

theorem rank_pipeline_members (teamStats : List TeamStat) (totals : List (String × ℚ)) :
    let ranked := sortBy (fun a b => decide (b.dayPts ≤ a.dayPts)) teamStats
    let withDay := ranked.enum.map (fun p => { p.2 with dayRank := p.1 + 1 })
    let withSeason := withDay.map (fun t =>
      { t with seasonPts := round1 (lookupTotal totals t.franchise) })
    let seasonSorted := sortBy (fun a b => decide (b.seasonPts ≤ a.seasonPts)) withSeason
    let seasonRankedF := seasonSorted.enum.map (fun p => { p.2 with seasonRank := p.1 + 1 })
    let teamsOut := sortBy (fun a b => decide (a.dayRank ≤ b.dayRank)) seasonRankedF
    ∀ t ∈ teamsOut, t.seasonPts = round1 (lookupTotal totals t.franchise) ∧
      t.franchise ∈ teamStats.map (·.franchise) := by
  intro ranked withDay withSeason seasonSorted seasonRankedF teamsOut t ht
  have ht1 : t ∈ seasonRankedF := (sortBy_perm _ seasonRankedF).mem_iff.mp ht
  obtain ⟨p, hp, hpt⟩ := List.mem_map.mp ht1
  have hp2 : p.2 ∈ seasonSorted := snd_mem_enumFrom _ _ _ hp
  have hp2' : p.2 ∈ withSeason := (sortBy_perm _ withSeason).mem_iff.mp hp2
  obtain ⟨w, hw, hwp⟩ := List.mem_map.mp hp2'
  have hw2 : w ∈ withDay := hw
  obtain ⟨q, hq, hqw⟩ := List.mem_map.mp hw2
  have hq2 : q.2 ∈ ranked := snd_mem_enumFrom _ _ _ hq
  have hq3 : q.2 ∈ teamStats := (sortBy_perm _ teamStats).mem_iff.mp hq2
  constructor
  · rw [← hpt, ← hwp]
  · rw [← hpt, ← hwp, ← hqw]
    exact List.mem_map.mpr ⟨q.2, hq3, rfl⟩

theorem bna_seasonPts (allDays : List Day) (scrape : Scrape) (nowDate nowIso : String) :
    ∀ t ∈ (buildNightlyAnalysis allDays scrape nowDate nowIso).teams,
    t.seasonPts = round1 ((allDays.map (fun d => keyedSum d.teams t.franchise)).sum +
      (if allDays.any (fun d =>
            d.date == (if scrape.date ≠ "" then scrape.date else nowDate)) = true then 0
       else keyedSum scrape.teams t.franchise)) := by
  intro t ht
  have hmem := rank_pipeline_members _ _ t (by exact ht)
  rcases hmem with ⟨hpts, hfr⟩
  rw [hpts]
  congr 1
  rcases List.mem_map.mp hfr with ⟨s, hs, hsf⟩
  rw [lookupTotal_seasonTotals _ _ _ _ _ (List.any_eq_true.mpr ⟨s, hs, by simp [hsf]⟩)]

/-- Claim C7: every output team's `seasonPts` is the 1-decimal rounding of
the sum of its attributed `dayPts` over all loaded records, plus today's
scraped contribution exactly when today's date is absent from the store;
consequently, storing today's record and re-running the builder leaves
every team's `seasonPts` unchanged (no double counting). -/
theorem season_totals_idempotent :
    (∀ (allDays : List Day) (scrape : Scrape) (nowDate nowIso : String),
      ∀ t ∈ (buildNightlyAnalysis allDays scrape nowDate nowIso).teams,
      t.seasonPts = round1 ((allDays.map (fun d => keyedSum d.teams t.franchise)).sum +
        (if allDays.any (fun d =>
              d.date == (if scrape.date ≠ "" then scrape.date else nowDate)) = true then 0
         else keyedSum scrape.teams t.franchise))) ∧
    (∀ (allDays : List Day) (scrape : Scrape) (nowDate nowIso : String) (r : Day),
      (if scrape.date ≠ "" then scrape.date else nowDate) = r.date →
      allDays.any (fun d => d.date == r.date) = false →
      (∀ f, keyedSum r.teams f = keyedSum scrape.teams f) →
      ∀ t ∈ (buildNightlyAnalysis (allDays ++ [r]) scrape nowDate nowIso).teams,
      ∀ t' ∈ (buildNightlyAnalysis allDays scrape nowDate nowIso).teams,
      t.franchise = t'.franchise → t.seasonPts = t'.seasonPts) := by
  refine ⟨bna_seasonPts, ?_⟩
  intro allDays scrape nowDate nowIso r htoday hnot hkeyed t ht t' ht' hfr
  have h1 := bna_seasonPts (allDays ++ [r]) scrape nowDate nowIso t ht
  have h2 := bna_seasonPts allDays scrape nowDate nowIso t' ht'
  rw [h1, h2, hfr, htoday]
  have hin : ((allDays ++ [r]).any (fun d => d.date == r.date)) = true :=
    List.any_eq_true.mpr ⟨r, by simp, by simp⟩
  rw [hin, hnot]
  simp only [Bool.false_eq_true, if_false, if_pos rfl]
  rw [List.map_append, List.sum_append]
  simp [hkeyed t'.franchise]

/-- Witness for C7 at an empty store with one scraped team: the builder
attributes today's 2 points once. -/
theorem season_totals_idempotent_witness :
    ({ franchise := "JGC", name := "Gaucho Chudpumpers", dayPts := 2, projPts := 0,
       gp := 1, ppg := 0, avg3d := none, avg7d := none, vsProj := none, streaks := [],
       projection := none, dayRank := 1, seasonPts := 2, seasonRank := 1 } : TeamStat).seasonPts =
      round1 ((([] : List Day).map (fun d => keyedSum d.teams "JGC")).sum +
        (if ([] : List Day).any (fun d =>
              d.date == (if scrapeOneTeam.date ≠ "" then scrapeOneTeam.date else "x")) = true
         then 0 else keyedSum scrapeOneTeam.teams "JGC")) :=
  season_totals_idempotent.1 [] scrapeOneTeam "x" "y"
    { franchise := "JGC", name := "Gaucho Chudpumpers", dayPts := 2, projPts := 0,
      gp := 1, ppg := 0, avg3d := none, avg7d := none, vsProj := none, streaks := [],
      projection := none, dayRank := 1, seasonPts := 2, seasonRank := 1 }
    (by norm_num +decide [buildNightlyAnalysis, scrapeOneTeam, resolveStatF, computeStreaks,
      buildTrendNarrative, rollingAvgPPG, seasonPPG, projectPeriodFinish, lastResort,
      sortBy, insertLe, List.enum, List.enumFrom, initTotals, seasonTotalsMap,
      addTeamsKnown, addKnown, histKey, lookupTotal, round1, round2, jsRound,
      periodDaysOf, jsSliceLast, dayHas, findTeam, keyedSum])
